import Mathlib

set_option maxRecDepth 10000

/- Verification development for the deerhacks-2022 "pain" language:
   a shallow embedding of src/tokenizer.py, src/pain_parser.py and
   src/expression.py, followed by theorems about the embedded code.

   Conventions of the embedding:
   * Python strings are `List Char`; the character-class predicates
     (`str.isdigit`, `isupper`, `isalpha`, `isspace`) are modelled on their
     ASCII fragment, which is the fragment the scripts of this repository use.
   * Python `int` is `Int`; Python `float` is modelled as `Rat` (the claims
     never observe IEEE rounding, only float-vs-int kind and zero tests).
   * Mutable objects are threaded as explicit state: the `Tokenizer` object is
     a record returned next to each token, the `Environment` chain is a
     parent-linked inductive returned next to each evaluated value, and the
     `Error` object is its traceback list.
   * Host-level faults (AttributeError, ValueError, AssertionError,
     IndexError) are an `Except PyExn` layer; nontermination of the
     interpreter loops is cut by a fuel parameter (`Option`, `none` = fuel
     exhausted). -/

namespace Pain

/-! ## src/tokenizer.py : constants and TokenType -/

def ROTATING_TOKEN_COUNT : Nat := 17

def ROTATING_TOKEN_OFFSET : Int := 16

inductive TokenType where
  | UNKNOWN | EOF | EOL | COMMA | RETURN
  | OPEN_PAR | CLOSING_PAR | OPEN_BLOCK | CLOSING_BLOCK
  | NAME | INT | FLOAT | STRING
  | CONDITIONAL | FOR_LOOP | WHILE_LOOP
  | ADD | SUBTRACT | MULTIPLY | DIVIDE | ASSIGN | EQUAL
  | GREATER_THAN | GREATER_EQUAL | LESS_THAN | LESS_EQUAL
  | TO_INT | TO_FLOAT | TO_BOOL | NOT | AND | OR | MOD
deriving DecidableEq, BEq, Repr

/-- The numeric value of each enum member, exactly as assigned in
tokenizer.py lines 18-50. -/
def TokenType.value : TokenType → Int
  | .UNKNOWN => 0
  | .EOF => 1
  | .EOL => 2
  | .COMMA => 3
  | .RETURN => 4
  | .OPEN_PAR => 5
  | .CLOSING_PAR => 6
  | .OPEN_BLOCK => 7
  | .CLOSING_BLOCK => 8
  | .NAME => 9
  | .INT => 10
  | .FLOAT => 11
  | .STRING => 12
  | .CONDITIONAL => 13
  | .FOR_LOOP => 14
  | .WHILE_LOOP => 15
  | .ADD => 16
  | .SUBTRACT => 17
  | .MULTIPLY => 18
  | .DIVIDE => 19
  | .ASSIGN => 20
  | .EQUAL => 21
  | .GREATER_THAN => 22
  | .GREATER_EQUAL => 23
  | .LESS_THAN => 24
  | .LESS_EQUAL => 25
  | .TO_INT => 26
  | .TO_FLOAT => 27
  | .TO_BOOL => 28
  | .NOT => 29
  | .AND => 30
  | .OR => 31
  | .MOD => 32

/-- Python `TokenType(v)`: the member with value `v`, or a ValueError
(modelled as `none`) when no member has that value. -/
def TokenType.ofValue (v : Int) : Option TokenType :=
  if v = 0 then some .UNKNOWN
  else if v = 1 then some .EOF
  else if v = 2 then some .EOL
  else if v = 3 then some .COMMA
  else if v = 4 then some .RETURN
  else if v = 5 then some .OPEN_PAR
  else if v = 6 then some .CLOSING_PAR
  else if v = 7 then some .OPEN_BLOCK
  else if v = 8 then some .CLOSING_BLOCK
  else if v = 9 then some .NAME
  else if v = 10 then some .INT
  else if v = 11 then some .FLOAT
  else if v = 12 then some .STRING
  else if v = 13 then some .CONDITIONAL
  else if v = 14 then some .FOR_LOOP
  else if v = 15 then some .WHILE_LOOP
  else if v = 16 then some .ADD
  else if v = 17 then some .SUBTRACT
  else if v = 18 then some .MULTIPLY
  else if v = 19 then some .DIVIDE
  else if v = 20 then some .ASSIGN
  else if v = 21 then some .EQUAL
  else if v = 22 then some .GREATER_THAN
  else if v = 23 then some .GREATER_EQUAL
  else if v = 24 then some .LESS_THAN
  else if v = 25 then some .LESS_EQUAL
  else if v = 26 then some .TO_INT
  else if v = 27 then some .TO_FLOAT
  else if v = 28 then some .TO_BOOL
  else if v = 29 then some .NOT
  else if v = 30 then some .AND
  else if v = 31 then some .OR
  else if v = 32 then some .MOD
  else none

/-- tokenizer.py line 57: a token type is an operator when its value is at
least ROTATING_TOKEN_OFFSET. -/
def TokenType.is_operator (t : TokenType) : Bool :=
  t.value ≥ ROTATING_TOKEN_OFFSET

/-- Python enum attribute access `TokenType.<name>`: `none` models the
AttributeError raised for a name that is not a member (the table below lists
every member that tokenizer.py declares; in particular IF, ELIF, ELSE and
FUNC_DECL, which pain_parser.py refers to, are absent). -/
def TokenType.member : String → Option TokenType
  | "UNKNOWN" => some .UNKNOWN
  | "EOF" => some .EOF
  | "EOL" => some .EOL
  | "COMMA" => some .COMMA
  | "RETURN" => some .RETURN
  | "OPEN_PAR" => some .OPEN_PAR
  | "CLOSING_PAR" => some .CLOSING_PAR
  | "OPEN_BLOCK" => some .OPEN_BLOCK
  | "CLOSING_BLOCK" => some .CLOSING_BLOCK
  | "NAME" => some .NAME
  | "INT" => some .INT
  | "FLOAT" => some .FLOAT
  | "STRING" => some .STRING
  | "CONDITIONAL" => some .CONDITIONAL
  | "FOR_LOOP" => some .FOR_LOOP
  | "WHILE_LOOP" => some .WHILE_LOOP
  | "ADD" => some .ADD
  | "SUBTRACT" => some .SUBTRACT
  | "MULTIPLY" => some .MULTIPLY
  | "DIVIDE" => some .DIVIDE
  | "ASSIGN" => some .ASSIGN
  | "EQUAL" => some .EQUAL
  | "GREATER_THAN" => some .GREATER_THAN
  | "GREATER_EQUAL" => some .GREATER_EQUAL
  | "LESS_THAN" => some .LESS_THAN
  | "LESS_EQUAL" => some .LESS_EQUAL
  | "TO_INT" => some .TO_INT
  | "TO_FLOAT" => some .TO_FLOAT
  | "TO_BOOL" => some .TO_BOOL
  | "NOT" => some .NOT
  | "AND" => some .AND
  | "OR" => some .OR
  | "MOD" => some .MOD
  | _ => none

/-! ## Token -/

inductive Payload where
  | intP (n : Int)
  | strP (s : List Char)
deriving DecidableEq, Repr

structure Token where
  token_type : TokenType
  payload : Option Payload
deriving DecidableEq, Repr

def Token.is_operator (t : Token) : Bool :=
  t.token_type.is_operator

def Token.is_token_type (t : Token) (tt : TokenType) : Bool :=
  t.token_type == tt

/-! ## Python string primitives (ASCII fragment) -/

def pyIsDigit (c : Char) : Bool := 48 ≤ c.toNat && c.toNat ≤ 57

def pyIsUpper (c : Char) : Bool := 65 ≤ c.toNat && c.toNat ≤ 90

def pyIsLower (c : Char) : Bool := 97 ≤ c.toNat && c.toNat ≤ 122

def pyIsAlpha (c : Char) : Bool := pyIsUpper c || pyIsLower c

def pyIsSpace (c : Char) : Bool :=
  c.toNat == 32 || c.toNat == 9 || c.toNat == 10 || c.toNat == 13 ||
    c.toNat == 11 || c.toNat == 12

/-- Python single-item indexing `s[i]`, including the negative-index
convention; `none` models IndexError. -/
def charAt (s : List Char) (i : Int) : Option Char :=
  if 0 ≤ i then s[i.toNat]?
  else if 0 ≤ (s.length : Int) + i then s[((s.length : Int) + i).toNat]?
  else none

/-- Python slicing `s[a:b]` for nonnegative-or-clamped bounds. -/
def pySlice (s : List Char) (a b : Int) : List Char :=
  let n : Int := s.length
  let a' := if a < 0 then max (n + a) 0 else min a n
  let b' := if b < 0 then max (n + b) 0 else min b n
  (s.take b'.toNat).drop a'.toNat

/-- Loop guard of the scanning loops: `self.index < len(self.script) and
p(self.script[self.index])`. -/
def scanCont (s : List Char) (p : Char → Bool) (i : Int) : Bool :=
  decide (i < (s.length : Int)) &&
    (match charAt s i with
     | some c => p c
     | Option.none => false)

/-- Fuel-indexed unrolling of the scanning loop. The loop guard requires the
cursor to stay below `s.length` and the cursor grows by one per iteration, so
`((s.length : Int) - i).toNat + 1` fuel always outlasts the loop; the lemmas
`scanEnd_stop` and `scanEnd_step` below show the fuelled form satisfies
exactly the two equations of the source's `while` loop. -/
def scanEndAux (s : List Char) (p : Char → Bool) : Nat → Int → Int
  | 0, i => i
  | fuel + 1, i => if scanCont s p i then scanEndAux s p fuel (i + 1) else i

/-- The index where a `self.index += 1` / `while self.index < len(script) and
p(script[self.index])` loop leaves the cursor, started at `i`. -/
def scanEnd (s : List Char) (p : Char → Bool) (i : Int) : Int :=
  scanEndAux s p (((s.length : Int) - i).toNat + 1) i

/-- Python `int` applied to a run of decimal digits. -/
def digitsToInt (s : List Char) : Int :=
  s.foldl (fun acc c => acc * 10 + ((c.toNat : Int) - 48)) 0

/-! ## Host-level faults -/

inductive PyExn where
  | attributeError (name : String)
  | valueError
  | assertionError
  | indexError
  | unmodelled
deriving DecidableEq, Repr

/-! ## Tokenizer -/

structure Tokenizer where
  script : List Char
  index : Int
  shift : Nat
  next_token : Option Token
deriving Repr

/-- tokenizer.py `Tokenizer.__init__`. -/
def Tokenizer.init (script : List Char) : Tokenizer :=
  ⟨script, -1, 0, Option.none⟩

/-- tokenizer.py `Tokenizer._get_numerical_token`. -/
def Tokenizer.get_numerical_token (t : Tokenizer) : Token × Tokenizer :=
  let start := t.index
  let e := scanEnd t.script pyIsDigit (t.index + 1)
  (⟨.INT, some (.intP (digitsToInt (pySlice t.script start ((e - 1) + 1))))⟩,
   { t with index := e - 1 })

/-- tokenizer.py `Tokenizer._get_string_token`: scans to the closing quote or
to the end of the input, leaving the cursor on the closing quote (or at the
end); the payload is everything strictly between. -/
def Tokenizer.get_string_token (t : Tokenizer) : Token × Tokenizer :=
  let start := t.index + 1
  let e := scanEnd t.script (fun c => !(c == '"')) (t.index + 1)
  (⟨.STRING, some (.strP (pySlice t.script start e))⟩, { t with index := e })

/-- tokenizer.py `Tokenizer._get_operator_token_from`: the rotating cipher.
`TokenType(...)` may raise ValueError; on success the shift counter is
incremented and wrapped. -/
def Tokenizer.get_operator_token_from (t : Tokenizer) (c : Char) :
    Except PyExn (Token × Tokenizer) :=
  match TokenType.ofValue ((c.toNat : Int) - 65 + ROTATING_TOKEN_OFFSET - t.shift) with
  | Option.none => .error .valueError
  | some tt =>
      .ok (⟨tt, Option.none⟩, { t with shift := (t.shift + 1) % ROTATING_TOKEN_COUNT })

/-- tokenizer.py `Tokenizer._get_control_flow_token`: a run of uppercase
letters; a run of length one goes through the cipher, a longer run is matched
against the keywords IF / FOR / WHILE (anything else hits `assert False`). -/
def Tokenizer.get_control_flow_token (t : Tokenizer) :
    Except PyExn (Token × Tokenizer) :=
  let start := t.index
  let e := scanEnd t.script pyIsUpper (t.index + 1)
  if e - start = 1 then
    match charAt t.script start with
    | some c => Tokenizer.get_operator_token_from { t with index := e } c
    | Option.none => .error .indexError
  else
    let keyword := pySlice t.script start e
    if keyword = "IF".toList then .ok (⟨.CONDITIONAL, Option.none⟩, { t with index := e })
    else if keyword = "FOR".toList then .ok (⟨.FOR_LOOP, Option.none⟩, { t with index := e })
    else if keyword = "WHILE".toList then .ok (⟨.WHILE_LOOP, Option.none⟩, { t with index := e })
    else .error .assertionError

/-- tokenizer.py `Tokenizer._get_name_token`. -/
def Tokenizer.get_name_token (t : Tokenizer) : Token × Tokenizer :=
  let start := t.index
  let e := scanEnd t.script pyIsAlpha (t.index + 1)
  (⟨.NAME, some (.strP (pySlice t.script start ((e - 1) + 1)))⟩,
   { t with index := e - 1 })

/-- tokenizer.py `Tokenizer.get_next_token`. Returns `(Option Token, state)`:
the Python function implicitly returns None on an unscannable character,
which is the `(none, _)` case. -/
def Tokenizer.get_next_token (t : Tokenizer) :
    Except PyExn (Option Token × Tokenizer) :=
  match t.next_token with
  | some ret => .ok (some ret, { t with next_token := Option.none })
  | Option.none =>
    let i := scanEnd t.script pyIsSpace (t.index + 1)
    let t := { t with index := i }
    if (t.script.length : Int) ≤ i then .ok (some ⟨.EOF, Option.none⟩, t)
    else
      match charAt t.script i with
      | Option.none => .error .indexError
      | some c =>
        if c == ')' then .ok (some ⟨.OPEN_PAR, Option.none⟩, t)
        else if c == '(' then .ok (some ⟨.CLOSING_PAR, Option.none⟩, t)
        else if c == '|' then .ok (some ⟨.EOL, Option.none⟩, t)
        else if c == ',' then .ok (some ⟨.COMMA, Option.none⟩, t)
        else if c == '[' then .ok (some ⟨.OPEN_BLOCK, Option.none⟩, t)
        else if c == ']' then .ok (some ⟨.CLOSING_BLOCK, Option.none⟩, t)
        else if pyIsDigit c then
          .ok (some (Tokenizer.get_numerical_token t).1,
               (Tokenizer.get_numerical_token t).2)
        else if c == '"' then
          .ok (some (Tokenizer.get_string_token t).1,
               (Tokenizer.get_string_token t).2)
        else if pyIsUpper c then
          (Tokenizer.get_control_flow_token t).map (fun p => (some p.1, p.2))
        else if pyIsAlpha c then
          .ok (some (Tokenizer.get_name_token t).1,
               (Tokenizer.get_name_token t).2)
        else .ok (Option.none, t)

/-- tokenizer.py `Tokenizer.peek_next_token`: caches the scanned result in
`next_token` (a Python None result leaves the cache empty, exactly as the
source's `self.next_token = self.get_next_token()` does). -/
def Tokenizer.peek_next_token (t : Tokenizer) :
    Except PyExn (Option Token × Tokenizer) :=
  match t.next_token with
  | some tok => .ok (some tok, t)
  | Option.none =>
    match Tokenizer.get_next_token t with
    | .error e => .error e
    | .ok (r, t1) => .ok (r, { t1 with next_token := r })

/-! ## String helpers for the exact host error messages -/

def sq : String := String.mk ['\'']

def quoted (s : String) : String := sq ++ s ++ sq

def dquoted (s : String) : String := "\"" ++ s ++ "\""

def nameUndefinedMsg (nm : String) : String :=
  "Name " ++ quoted nm ++ " is not defined."

def unsupportedOperandMsg (sym a b : String) : String :=
  "unsupported operand type(s) for " ++ sym ++ ": " ++ quoted a ++ " and " ++ quoted b

def cmpNotSupportedMsg (sym a b : String) : String :=
  quoted sym ++ " not supported between instances of " ++ quoted a ++ " and " ++ quoted b

def concatMsg (b : String) : String :=
  "can only concatenate str (not " ++ dquoted b ++ ") to str"

def seqRepeatMsg (t : String) : String :=
  "can" ++ sq ++ "t multiply sequence by non-int of type " ++ quoted t

def zeroDivMsg : String := "division by zero"

def zeroDivFloatMsg : String := "float division by zero"

def zeroModMsg : String := "integer division or modulo by zero"

def zeroModFloatMsg : String := "float modulo"

/-- Naive substring test (`pat` occurs contiguously in the other list),
used to state "the message mentions division by zero". -/
def charListHasPrefix : List Char → List Char → Bool
  | [], _ => true
  | _ :: _, [] => false
  | p :: ps, c :: cs => p == c && charListHasPrefix ps cs

def charListMentions (pat : List Char) : List Char → Bool
  | [] => charListHasPrefix pat []
  | c :: cs => charListHasPrefix pat (c :: cs) || charListMentions pat cs

/-! ## src/expression.py : values

A Python runtime value of the interpreter. `retVal` is the `RetVal` object
(a `Constant` subclass wrapping an already-evaluated value); `nameObj` is a
`Name` expression object used as a value (the parser emits
`Constant(Name(x))` as assignment targets); `error` is an `Error` object,
represented by its `traceback` list (index 0 = innermost message). Python
floats are modelled as rationals (no claim observes IEEE rounding). Function
and Builtin objects never appear in the programs the claims quantify over
and are not modelled as values. -/

inductive Value where
  | int (n : Int)
  | float (q : Rat)
  | bool (b : Bool)
  | str (s : String)
  | noneV
  | error (traceback : List String)
  | retVal (value : Value)
  | nameObj (name : String) (origin : Int)
deriving DecidableEq, Repr

/-- expression.py `Error.append`: the entry text appended for a message and
an origin line (origin < 0 drops the line indicator). -/
def errEntry (message : String) (origin : Int) : String :=
  if origin < 0 then message
  else if message = "" then "Line " ++ toString origin
  else "Line " ++ toString origin ++ ": " ++ message

/-- expression.py `Error.__init__`: empty message gives an empty traceback. -/
def errNew (message : String) (origin : Int) : List String :=
  if message = "" then [] else [errEntry message origin]

/-- expression.py `Error.append` acting on a traceback. -/
def errAppend (tr : List String) (message : String) (origin : Int) : List String :=
  tr ++ [errEntry message origin]

def isError : Value → Bool
  | .error _ => true
  | _ => false

def isRetVal : Value → Bool
  | .retVal _ => true
  | _ => false

/-- The ubiquitous `if isinstance(result, Error): result.append("", self.origin)`
step of the evaluator. -/
def appendOrigin (v : Value) (origin : Int) : Value :=
  match v with
  | .error tr => .error (errAppend tr "" origin)
  | v => v

/-- Python `bool(x)` truthiness on the modelled value kinds (total on them:
objects without `__bool__`, such as Error / RetVal / Name, are truthy). -/
def pyBool : Value → Bool
  | .int n => decide (n ≠ 0)
  | .float q => decide (q ≠ 0)
  | .bool b => b
  | .str s => decide (s ≠ "")
  | .noneV => false
  | .error _ => true
  | .retVal _ => true
  | .nameObj _ _ => true

/-- Python `int`-valued operands: `bool` is an `int` subclass. -/
def intVal : Value → Option Int
  | .int n => some n
  | .bool b => some (if b then 1 else 0)
  | _ => Option.none

/-- Numeric operands with their float-ness (`true` = Python float). -/
def numKind : Value → Option (Bool × Rat)
  | .int n => some (false, (n : Rat))
  | .bool b => some (false, if b then 1 else 0)
  | .float q => some (true, q)
  | _ => Option.none

def pyTypeName : Value → String
  | .int _ => "int"
  | .float _ => "float"
  | .bool _ => "bool"
  | .str _ => "str"
  | .noneV => "NoneType"
  | .error _ => "Error"
  | .retVal _ => "RetVal"
  | .nameObj _ _ => "Name"

/-! ## Python binary primitives (exactly the cases the CPython operators
distinguish on the modelled value kinds; TypeError / ZeroDivisionError become
`Value.error` with the CPython message, matching the `except` clauses in
expression.py). -/

def pyAdd (a b : Value) : Value :=
  match a, b with
  | .str s, .str t => .str (s ++ t)
  | _, _ =>
    match intVal a, intVal b with
    | some x, some y => .int (x + y)
    | _, _ =>
      match numKind a, numKind b with
      | some (_, qa), some (_, qb) => .float (qa + qb)
      | _, _ =>
        match a with
        | .str _ => .error [concatMsg (pyTypeName b)]
        | _ => .error [unsupportedOperandMsg "+" (pyTypeName a) (pyTypeName b)]

def pySub (a b : Value) : Value :=
  match intVal a, intVal b with
  | some x, some y => .int (x - y)
  | _, _ =>
    match numKind a, numKind b with
    | some (_, qa), some (_, qb) => .float (qa - qb)
    | _, _ => .error [unsupportedOperandMsg "-" (pyTypeName a) (pyTypeName b)]

def strRepeat (s : String) (n : Int) : String :=
  if n ≤ 0 then "" else String.join (List.replicate n.toNat s)

def pyMul (a b : Value) : Value :=
  match intVal a, intVal b with
  | some x, some y => .int (x * y)
  | _, _ =>
    match a, b with
    | .str s, _ =>
      match intVal b with
      | some n => .str (strRepeat s n)
      | Option.none => .error [seqRepeatMsg (pyTypeName b)]
    | _, .str t =>
      match intVal a with
      | some n => .str (strRepeat t n)
      | Option.none => .error [seqRepeatMsg (pyTypeName a)]
    | _, _ =>
      match numKind a, numKind b with
      | some (_, qa), some (_, qb) => .float (qa * qb)
      | _, _ => .error [unsupportedOperandMsg "*" (pyTypeName a) (pyTypeName b)]

/-- Python `/` is true division: an int by a nonzero int is a float. -/
def pyDiv (a b : Value) : Value :=
  match numKind a, numKind b with
  | some (fa, qa), some (fb, qb) =>
    if qb = 0 then
      if fa || fb then .error [zeroDivFloatMsg] else .error [zeroDivMsg]
    else .float (qa / qb)
  | _, _ => .error [unsupportedOperandMsg "/" (pyTypeName a) (pyTypeName b)]

/-- Python `%` is floored modulo (result takes the divisor's sign). -/
def pyMod (a b : Value) : Value :=
  match intVal a, intVal b with
  | some x, some y => if y = 0 then .error [zeroModMsg] else .int (Int.fmod x y)
  | _, _ =>
    match numKind a, numKind b with
    | some (_, qa), some (_, qb) =>
      if qb = 0 then .error [zeroModFloatMsg]
      else .float (qa - qb * (Rat.floor (qa / qb) : Rat))
    | _, _ => .error [unsupportedOperandMsg "%" (pyTypeName a) (pyTypeName b)]

/-- Python `==` on the modelled kinds: numeric kinds compare by value, str
by content, None equals None; values of unrelated kinds compare unequal.
Identity comparison of remaining object kinds is not modelled (no claim
compares such objects). -/
def pyEq (a b : Value) : Bool :=
  match numKind a, numKind b with
  | some (_, qa), some (_, qb) => qa == qb
  | _, _ =>
    match a, b with
    | .str s, .str t => s == t
    | .noneV, .noneV => true
    | _, _ => false

/-- Shared shape of the four Python comparison operators: numeric kinds
compare numerically, strings lexicographically, anything else raises a
TypeError with the CPython message. -/
def pyCmp (sym : String) (fi : Rat → Rat → Bool) (fs : String → String → Bool)
    (a b : Value) : Value :=
  match numKind a, numKind b with
  | some (_, qa), some (_, qb) => .bool (fi qa qb)
  | _, _ =>
    match a, b with
    | .str s, .str t => .bool (fs s t)
    | _, _ => .error [cmpNotSupportedMsg sym (pyTypeName a) (pyTypeName b)]

/-! ## src/expression.py : Environment -/

abbrev Dict := List (String × Value)

def Dict.empty : Dict := []

def Dict.contains : Dict → String → Bool
  | [], _ => false
  | (k, _) :: rest, nm => k == nm || Dict.contains rest nm

def Dict.find : Dict → String → Option Value
  | [], _ => Option.none
  | (k, v) :: rest, nm => if k == nm then some v else Dict.find rest nm

/-- Python `d[k] = v`: replace the existing binding, else append a new one. -/
def Dict.set : Dict → String → Value → Dict
  | [], nm, v => [(nm, v)]
  | (k, w) :: rest, nm, v =>
    if k == nm then (nm, v) :: rest else (k, w) :: Dict.set rest nm v

def Dict.keys (d : Dict) : List String := d.map Prod.fst

/-- expression.py `Environment`: a frame of local variables with an optional
parent reference. The chain is threaded through evaluation as explicit
state, which models the source's in-place mutation of the shared frames. -/
inductive Environment where
  | mk (local_vars : Dict) (parent_env : Option Environment)
deriving Repr

def Environment.local_vars : Environment → Dict
  | ⟨d, _⟩ => d

def Environment.parent_env : Environment → Option Environment
  | ⟨_, p⟩ => p

/-- The chain as a list of frames, innermost first. -/
def Environment.frames : Environment → List Dict
  | ⟨d, some p⟩ => d :: Environment.frames p
  | ⟨d, Option.none⟩ => [d]

/-- expression.py `Environment.get_value`. -/
def Environment.get_value : Environment → String → Value
  | ⟨d, p⟩, nm =>
    match Dict.find d nm with
    | some v => v
    | Option.none =>
      match p with
      | some pe => Environment.get_value pe nm
      | Option.none => .error [nameUndefinedMsg nm]

/-- expression.py `Environment.get_dict_of`, rendered functionally: the depth
of the first frame (walking outward) that binds the name — the source
returns that frame's dict object, here identified by its depth; `none` is
the Error return for an unbound name. -/
def Environment.get_dict_of : Environment → String → Option Nat
  | ⟨d, p⟩, nm =>
    if Dict.contains d nm then some 0
    else
      match p with
      | some pe => (Environment.get_dict_of pe nm).map (fun j => j + 1)
      | Option.none => Option.none

def Environment.containsAnywhere : Environment → String → Bool
  | ⟨d, p⟩, nm =>
    Dict.contains d nm ||
      (match p with
       | some pe => Environment.containsAnywhere pe nm
       | Option.none => false)

/-- Update the first frame (walking outward) that binds the name; identity
when no frame binds it (that case is excluded by the caller). -/
def Environment.setExisting : Environment → String → Value → Environment
  | ⟨d, p⟩, nm, v =>
    if Dict.contains d nm then ⟨Dict.set d nm v, p⟩
    else
      match p with
      | some pe => ⟨d, some (Environment.setExisting pe nm v)⟩
      | Option.none => ⟨d, p⟩

/-- expression.py `Name.assign`: write through `get_dict_of`, falling back to
the innermost frame when the name is bound nowhere. -/
def Name.assign (nm : String) (v : Value) (env : Environment) : Environment :=
  if Environment.containsAnywhere env nm then Environment.setExisting env nm v
  else
    match env with
    | ⟨d, p⟩ => ⟨Dict.set d nm v, p⟩

/-- Parent of a child scope; only ever applied to scopes built as
`Environment.mk _ (some _)`, the fallback branch is unreachable. -/
def Environment.parentOf : Environment → Environment
  | ⟨_, some p⟩ => p
  | ⟨d, Option.none⟩ => ⟨d, Option.none⟩

/-! ## src/expression.py : Operators and the dispatch table -/

def Operators.add (args : List Value) (env : Environment) : Value × Environment :=
  if args.length ≠ 2 then (.error ["ADD operator requires exactly 2 operands."], env)
  else (pyAdd (args.getD 0 .noneV) (args.getD 1 .noneV), env)

def Operators.sub (args : List Value) (env : Environment) : Value × Environment :=
  if args.length ≠ 2 then (.error ["SUB operator requires exactly 2 operands."], env)
  else (pySub (args.getD 0 .noneV) (args.getD 1 .noneV), env)

def Operators.mul (args : List Value) (env : Environment) : Value × Environment :=
  if args.length ≠ 2 then (.error ["MUL operator requires exactly 2 operands."], env)
  else (pyMul (args.getD 0 .noneV) (args.getD 1 .noneV), env)

def Operators.mod (args : List Value) (env : Environment) : Value × Environment :=
  if args.length ≠ 2 then (.error ["MOD operator requires exactly 2 operands."], env)
  else (pyMod (args.getD 0 .noneV) (args.getD 1 .noneV), env)

def Operators.div (args : List Value) (env : Environment) : Value × Environment :=
  if args.length ≠ 2 then (.error ["DIV operator requires exactly 2 operands."], env)
  else (pyDiv (args.getD 0 .noneV) (args.getD 1 .noneV), env)

def Operators.eql (args : List Value) (env : Environment) : Value × Environment :=
  if args.length ≠ 2 then (.error ["EQL operator requires exactly 2 operands."], env)
  else (.bool (pyEq (args.getD 0 .noneV) (args.getD 1 .noneV)), env)

def Operators.grt (args : List Value) (env : Environment) : Value × Environment :=
  if args.length ≠ 2 then (.error ["GRT operator requires exactly 2 operands."], env)
  else (pyCmp ">" (fun x y => decide (y < x)) (fun s t => decide (t < s))
          (args.getD 0 .noneV) (args.getD 1 .noneV), env)

def Operators.geq (args : List Value) (env : Environment) : Value × Environment :=
  if args.length ≠ 2 then (.error ["GEQ operator requires exactly 2 operands."], env)
  else (pyCmp ">=" (fun x y => decide (y ≤ x)) (fun s t => decide (t ≤ s))
          (args.getD 0 .noneV) (args.getD 1 .noneV), env)

def Operators.les (args : List Value) (env : Environment) : Value × Environment :=
  if args.length ≠ 2 then (.error ["LES operator requires exactly 2 operands."], env)
  else (pyCmp "<" (fun x y => decide (x < y)) (fun s t => decide (s < t))
          (args.getD 0 .noneV) (args.getD 1 .noneV), env)

def Operators.leq (args : List Value) (env : Environment) : Value × Environment :=
  if args.length ≠ 2 then (.error ["LEQ operator requires exactly 2 operands."], env)
  else (pyCmp "<=" (fun x y => decide (x ≤ y)) (fun s t => decide (s ≤ t))
          (args.getD 0 .noneV) (args.getD 1 .noneV), env)

/-- expression.py `Operators.ass`: mutates the environment through
`Name.assign` and implicitly returns Python None. -/
def Operators.ass (args : List Value) (env : Environment) : Value × Environment :=
  if args.length ≠ 2 then (.error ["ASSIGN operator requires exactly 2 operands."], env)
  else
    match args.getD 0 .noneV with
    | .nameObj nm _ => (.noneV, Name.assign nm (args.getD 1 .noneV) env)
    | _ => (.error ["ASSIGN operator requires assignable left operand."], env)

def Operators.ret (args : List Value) (env : Environment) : Value × Environment :=
  if args.length ≠ 1 then (.error ["RETURN operator requires exactly 1 operand."], env)
  else (.retVal (args.getD 0 .noneV), env)

def Operators._not (args : List Value) (env : Environment) : Value × Environment :=
  if args.length ≠ 1 then (.error ["NOT operator requires exactly 1 operand."], env)
  else (.bool (!pyBool (args.getD 0 .noneV)), env)

/-- expression.py `Operators._and`, lines 343-354. NOTE: the source really
tests `len(args) != 1` (not 2), while the dispatch table passes both
operands; the faulty test is reproduced verbatim. -/
def Operators._and (args : List Value) (env : Environment) : Value × Environment :=
  if args.length ≠ 1 then (.error ["AND operator requires exactly 2 operands."], env)
  else (.bool (pyBool (args.getD 0 .noneV) && pyBool (args.getD 1 .noneV)), env)

/-- expression.py `Operators._or`, lines 356-367; same `len(args) != 1` test
as `_and`, reproduced verbatim. -/
def Operators._or (args : List Value) (env : Environment) : Value × Environment :=
  if args.length ≠ 1 then (.error ["OR operator requires exactly 2 operands."], env)
  else (.bool (pyBool (args.getD 0 .noneV) || pyBool (args.getD 1 .noneV)), env)

/-- expression.py `OPERATORS` dispatch table, lines 372-389:
(has left operand, has right operand, operator function); token types
outside the table (including TO_INT / TO_FLOAT / TO_BOOL) map to none. -/
def OPERATORS : TokenType →
    Option (Bool × Bool × (List Value → Environment → Value × Environment))
  | .ADD => some (true, true, Operators.add)
  | .SUBTRACT => some (true, true, Operators.sub)
  | .MULTIPLY => some (true, true, Operators.mul)
  | .DIVIDE => some (true, true, Operators.div)
  | .MOD => some (true, true, Operators.mod)
  | .EQUAL => some (true, true, Operators.eql)
  | .GREATER_THAN => some (true, true, Operators.grt)
  | .GREATER_EQUAL => some (true, true, Operators.geq)
  | .LESS_THAN => some (true, true, Operators.les)
  | .LESS_EQUAL => some (true, true, Operators.leq)
  | .ASSIGN => some (true, true, Operators.ass)
  | .RETURN => some (false, true, Operators.ret)
  | .NOT => some (false, true, Operators._not)
  | .AND => some (true, true, Operators._and)
  | .OR => some (true, true, Operators._or)
  | _ => Option.none

def tokenTypeName : TokenType → String
  | .UNKNOWN => "UNKNOWN"
  | .EOF => "EOF"
  | .EOL => "EOL"
  | .COMMA => "COMMA"
  | .RETURN => "RETURN"
  | .OPEN_PAR => "OPEN_PAR"
  | .CLOSING_PAR => "CLOSING_PAR"
  | .OPEN_BLOCK => "OPEN_BLOCK"
  | .CLOSING_BLOCK => "CLOSING_BLOCK"
  | .NAME => "NAME"
  | .INT => "INT"
  | .FLOAT => "FLOAT"
  | .STRING => "STRING"
  | .CONDITIONAL => "CONDITIONAL"
  | .FOR_LOOP => "FOR_LOOP"
  | .WHILE_LOOP => "WHILE_LOOP"
  | .ADD => "ADD"
  | .SUBTRACT => "SUBTRACT"
  | .MULTIPLY => "MULTIPLY"
  | .DIVIDE => "DIVIDE"
  | .ASSIGN => "ASSIGN"
  | .EQUAL => "EQUAL"
  | .GREATER_THAN => "GREATER_THAN"
  | .GREATER_EQUAL => "GREATER_EQUAL"
  | .LESS_THAN => "LESS_THAN"
  | .LESS_EQUAL => "LESS_EQUAL"
  | .TO_INT => "TO_INT"
  | .TO_FLOAT => "TO_FLOAT"
  | .TO_BOOL => "TO_BOOL"
  | .NOT => "NOT"
  | .AND => "AND"
  | .OR => "OR"
  | .MOD => "MOD"

/-- The f-string `f"Operator \x7bself.operator\x7d is invalid."` renders the
enum member as TokenType.NAME. -/
def opInvalidMsg (op : TokenType) : String :=
  "Operator " ++ quoted ("TokenType." ++ tokenTypeName op) ++ " is invalid."

/-! ## src/expression.py : Expression nodes -/

/-- The Expression variants the claims quantify over. `block` has no origin
field because `Block.__init__` calls `Expression.__init__(self)` without
forwarding its origin argument, so every Block's origin is -1. `functionDef`
is the `Function` expression (params + code); `Builtin` and `Invocation` are
not needed by any claim and are not modelled. -/
inductive Expression where
  | constant (value : Value) (origin : Int)
  | name (nm : String) (origin : Int)
  | operation (l_operand : Option Expression) (operator : TokenType)
      (r_operand : Option Expression) (origin : Int)
  | block (steps : List Expression)
  | ifBlock (steps : List (Expression × Expression)) (origin : Int)
  | whileLoop (cond : Option Expression) (code : Option Expression) (origin : Int)
  | forLoop (first : Option Expression) (cond : Option Expression)
      (on_rpt : Option Expression) (code : Option Expression) (origin : Int)
  | functionDef (params : List String) (code : Expression) (origin : Int)

/-- The evaluator type threaded into the loop helpers: the partial
application `Expression.evaluate fuel` at one less fuel. -/
abbrev Evaluator := Expression → Environment → Option (Value × Environment)

/-- One operand of `Operation.evaluate`: when needed, a missing operand or a
sub-Error returns early (`.inr`), otherwise the evaluated value is appended
to the argument list (`.inl`); `none` is fuel exhaustion. -/
def collectOperand (ev : Evaluator) (need : Bool) (oe : Option Expression)
    (missing : String) (o : Int) (acc : List Value) (env : Environment) :
    Option ((List Value × Environment) ⊕ (Value × Environment)) :=
  if need then
    match oe with
    | Option.none => some (.inr (.error (errNew missing o), env))
    | some e =>
      match ev e env with
      | Option.none => Option.none
      | some (v, env') =>
        if isError v then some (.inr (appendOrigin v o, env'))
        else some (.inl (acc ++ [v], env'))
  else some (.inl (acc, env))

/-- expression.py `Operation.evaluate`, lines 502-550. -/
def evalOp (ev : Evaluator) (l : Option Expression) (op : TokenType)
    (r : Option Expression) (o : Int) (env : Environment) :
    Option (Value × Environment) :=
  match OPERATORS op with
  | Option.none => some (.error (errNew (opInvalidMsg op) o), env)
  | some (needL, needR, fn) =>
    match collectOperand ev needL l "Missing left operand." o [] env with
    | Option.none => Option.none
    | some (.inr res) => some res
    | some (.inl (args, env1)) =>
      match collectOperand ev needR r "Missing right operand." o args env1 with
      | Option.none => Option.none
      | some (.inr res) => some res
      | some (.inl (args2, env2)) =>
        let (result, env3) := fn args2 env2
        some (appendOrigin result o, env3)

/-- expression.py `Block.evaluate`, lines 569-592: statements run in the
scope passed in; an Error is appended to (Block origin is always -1) and
propagated; a RetVal is propagated unmodified, skipping later statements;
falling off the end returns Python None. -/
def evalBlockSteps (ev : Evaluator) : List Expression → Environment →
    Option (Value × Environment)
  | [], env => some (.noneV, env)
  | s :: rest, env =>
    match ev s env with
    | Option.none => Option.none
    | some (v, env') =>
      if isError v then some (appendOrigin v (-1), env')
      else if isRetVal v then some (v, env')
      else evalBlockSteps ev rest env'

/-- expression.py `IfBlock.evaluate`: first truthy condition wins, its block
runs in a fresh child scope and its result is returned as-is (after
appending to an Error). -/
def evalIfSteps (ev : Evaluator) : List (Expression × Expression) → Int →
    Environment → Option (Value × Environment)
  | [], _, env => some (.noneV, env)
  | (c, blk) :: rest, o, env =>
    match ev c env with
    | Option.none => Option.none
    | some (cv, env1) =>
      if isError cv then some (appendOrigin cv o, env1)
      else if pyBool cv then
        match ev blk ⟨Dict.empty, some env1⟩ with
        | Option.none => Option.none
        | some (res, cenv) => some (appendOrigin res o, Environment.parentOf cenv)
      else evalIfSteps ev rest o env1

/-- Condition step shared by While and For: an Error propagates with an
appended entry (`.inl`), otherwise Python bool() coercion decides whether
the iteration proceeds; this is where a RetVal condition is coerced to a
truthy object rather than propagated. -/
def loopCond (ev : Evaluator) (c : Option Expression) (o : Int)
    (env : Environment) : Option (Value × Environment) ⊕ (Bool × Environment) :=
  match c with
  | Option.none => .inr (true, env)
  | some ce =>
    match ev ce env with
    | Option.none => .inl Option.none
    | some (cv, env1) =>
      if isError cv then .inl (some (appendOrigin cv o, env1))
      else .inr (pyBool cv, env1)

/-- Shared shape of For's `first` / `code` / `on_rpt` handling (and of
For's overall early returns): an Error is appended to and returned, a
RetVal is returned unmodified, anything else continues with the updated
scope. -/
def runOptStep (ev : Evaluator) (oe : Option Expression) (o : Int)
    (env : Environment) : Option (Value × Environment) ⊕ Environment :=
  match oe with
  | Option.none => .inr env
  | some e =>
    match ev e env with
    | Option.none => .inl Option.none
    | some (v, env') =>
      if isError v then .inl (some (appendOrigin v o, env'))
      else if isRetVal v then .inl (some (v, env'))
      else .inr env'

/-- expression.py `WhileLoop.evaluate`, lines 675-720: condition re-checked
each iteration in the enclosing scope, body in a fresh child scope per
iteration; falsy condition returns Python None. -/
def evalWhile (ev : Evaluator) (c : Option Expression) (b : Option Expression)
    (o : Int) : Nat → Environment → Option (Value × Environment)
  | 0, _ => Option.none
  | fuel + 1, env =>
    match loopCond ev c o env with
    | .inl res => res
    | .inr (false, env1) => some (.noneV, env1)
    | .inr (true, env1) =>
      match b with
      | Option.none => evalWhile ev c b o fuel env1
      | some blk =>
        match ev blk ⟨Dict.empty, some env1⟩ with
        | Option.none => Option.none
        | some (res, benv) =>
          let env2 := Environment.parentOf benv
          if isError res then some (appendOrigin res o, env2)
          else if isRetVal res then some (res, env2)
          else evalWhile ev c b o fuel env2

/-- expression.py `ForLoop.evaluate`, iteration part of lines 788-816: the
whole loop runs in the single scope `env` passed here (the caller built it
once); the body runs directly in it, not in a per-iteration child. The
returned environment is the loop scope at the moment of return (the caller
pops it). -/
def evalFor (ev : Evaluator) (c : Option Expression) (b : Option Expression)
    (r : Option Expression) (o : Int) : Nat → Environment →
    Option (Value × Environment)
  | 0, _ => Option.none
  | fuel + 1, env =>
    match loopCond ev c o env with
    | .inl res => res
    | .inr (false, env1) => some (.noneV, env1)
    | .inr (true, env1) =>
      match runOptStep ev b o env1 with
      | .inl res => res
      | .inr env2 =>
        match runOptStep ev r o env2 with
        | .inl res => res
        | .inr env3 => evalFor ev c b r o fuel env3

/-- The tree-walking evaluator: `evaluate(self, env)` of each Expression
variant, with a fuel parameter cutting the two interpreter loops
(`none` = fuel exhausted, i.e. the Python program runs longer than the
fuel allows). -/
def Expression.evaluate : Nat → Expression → Environment →
    Option (Value × Environment)
  | 0, _, _ => Option.none
  | fuel + 1, e, env =>
    match e with
    | .constant v _ => some (v, env)
    | .name nm o =>
      match Environment.get_value env nm with
      | .error tr => some (.error (errAppend tr "" o), env)
      | v => some (v, env)
    | .operation l op r o => evalOp (Expression.evaluate fuel) l op r o env
    | .block steps => evalBlockSteps (Expression.evaluate fuel) steps env
    | .ifBlock steps o => evalIfSteps (Expression.evaluate fuel) steps o env
    | .whileLoop c b o => evalWhile (Expression.evaluate fuel) c b o fuel env
    | .forLoop f c r b o =>
      match runOptStep (Expression.evaluate fuel) f o ⟨Dict.empty, some env⟩ with
      | .inl res => res.map (fun p => (p.1, Environment.parentOf p.2))
      | .inr loop_env1 =>
        match evalFor (Expression.evaluate fuel) c b r o fuel loop_env1 with
        | Option.none => Option.none
        | some (v, le) => some (v, Environment.parentOf le)
    | .functionDef _ code o =>
      match Expression.evaluate fuel code ⟨Dict.empty, some env⟩ with
      | Option.none => Option.none
      | some (res, cenv) =>
        let env' := Environment.parentOf cenv
        if isError res then some (appendOrigin res o, env')
        else
          match res with
          | .retVal v => some (v, env')
          | _ => some (.noneV, env')

/-- d nested one-statement Blocks around an expression (for the traceback
depth claim). -/
def nestBlocks : Nat → Expression → Expression
  | 0, e => e
  | d + 1, e => .block [nestBlocks d e]

/-! ## src/pain_parser.py : the fragment the parser claim needs -/

structure Parser where
  tokenizer : Tokenizer

def Parser.init (script : List Char) : Parser :=
  ⟨Tokenizer.init script⟩

/-- The EOL-skipping loop at the head of `Parser.parse_line` (lines
332-336). Calling `is_token_type` on a Python None peek raises
AttributeError on NoneType. Outer `none` is loop fuel exhaustion. -/
def skipEOLs : Nat → Tokenizer → Option (Except PyExn (Token × Tokenizer))
  | 0, _ => Option.none
  | fuel + 1, t =>
    match Tokenizer.peek_next_token t with
    | .error e => some (.error e)
    | .ok (Option.none, _) => some (.error (.attributeError "NoneType"))
    | .ok (some tok, t1) =>
      if tok.is_token_type .EOL then
        match Tokenizer.get_next_token t1 with
        | .error e => some (.error e)
        | .ok (_, t2) => skipEOLs fuel t2
      else some (.ok (tok, t1))

/-- pain_parser.py `Parser.parse_line`, lines 278-351. After the EOL skip the
source evaluates `right.is_token_type(TokenType.IF)`; `TokenType.member "IF"`
is `none` (tokenizer.py's enum has CONDITIONAL, not IF), so the attribute
lookup raises for every input. The remaining statement dispatch — the
WHILE_LOOP / FOR_LOOP branches, the `TokenType.FUNC_DECL` lookup,
`parse_assignment`, and the `None` return at EOF / CLOSING_BLOCK /
CLOSING_PAR — is unreachable and therefore marked `unmodelled` rather than
embedded. -/
def Parser.parse_line (fuel : Nat) (p : Parser) :
    Option (Except PyExn (Option Expression × Parser)) :=
  match skipEOLs fuel p.tokenizer with
  | Option.none => Option.none
  | some (.error e) => some (.error e)
  | some (.ok (_right, _t1)) =>
    match TokenType.member "IF" with
    | Option.none => some (.error (.attributeError "IF"))
    | some _ => some (.error .unmodelled)

/-! ## Concrete programs used by the theorems -/

def env0 : Environment := ⟨[], Option.none⟩

/-- Enclosing scope for the for-loop test: one binding `out = 0`. -/
def outEnv0 : Environment := ⟨[("out", .int 0)], Option.none⟩

/-- The spec's for-loop header `i = 0`. -/
def forLoopInit : Expression :=
  .operation (some (.constant (.nameObj "i" (-1)) (-1))) .ASSIGN
    (some (.constant (.int 0) (-1))) (-1)

/-- The spec's for-loop header `i < 5`. -/
def forLoopCond : Expression :=
  .operation (some (.name "i" (-1))) .LESS_THAN
    (some (.constant (.int 5) (-1))) (-1)

/-- The spec's for-loop header `i = i + 1`. -/
def forLoopStep : Expression :=
  .operation (some (.constant (.nameObj "i" (-1)) (-1))) .ASSIGN
    (some (.operation (some (.name "i" (-1))) .ADD
      (some (.constant (.int 1) (-1))) (-1))) (-1)

/-- A body that collects `i` in order: `out = out * 10 + i`; the five
iterations with i = 0,1,2,3,4 leave `out = 1234` (0, 1, 12, 123, 1234) and
any other visiting order yields a different value. -/
def forLoopBody : Expression :=
  .block [.operation (some (.constant (.nameObj "out" (-1)) (-1))) .ASSIGN
    (some (.operation
      (some (.operation (some (.name "out" (-1))) .MULTIPLY
        (some (.constant (.int 10) (-1))) (-1)))
      .ADD (some (.name "i" (-1))) (-1))) (-1)]

/-- `FOR [i = 0 | i < 5 | i = i + 1] [out = out * 10 + i]`. -/
def forLoopDemo : Expression :=
  .forLoop (some forLoopInit) (some forLoopCond) (some forLoopStep)
    (some forLoopBody) (-1)

/-- A condition that evaluates to `RetVal(0)`: `Operation(None, RETURN, Constant(0))`. -/
def retCondDemo : Expression :=
  .operation Option.none .RETURN (some (.constant (.int 0) (-1))) (-1)

/-- `WhileLoop(retCondDemo, Block([Operation(None, RETURN, Constant(1))]))`. -/
def whileRetCondDemo : Expression :=
  .whileLoop (some retCondDemo)
    (some (.block [.operation Option.none .RETURN
      (some (.constant (.int 1) (-1))) (-1)])) (-1)

/-! # Theorems -/

/-- C1. The claim states `Operation(Constant(a), AND, Constant(b))` (and OR)
evaluates to the boolean conjunction (disjunction); in the source both
`Operators._and` and `Operators._or` test `len(args) != 1` although the
OPERATORS table passes both operands, so an AND/OR operation with two
operands always returns the arity Error — contradicting the functions' own
docstrings ("Throws if <args> does not have exactly 2 objects") and their
own error text. The theorem evaluates the claim's operations (for every pair
of booleans and every environment) and exhibits the Error. -/
theorem c1_and_or_operator_arity_bug :
    ∀ (a b : Bool) (env : Environment),
      Expression.evaluate 9
          (.operation (some (.constant (.bool a) (-1))) .AND
            (some (.constant (.bool b) (-1))) (-1)) env =
        some (.error ["AND operator requires exactly 2 operands.", ""], env)
      ∧ Expression.evaluate 9
          (.operation (some (.constant (.bool a) (-1))) .OR
            (some (.constant (.bool b) (-1))) (-1)) env =
        some (.error ["OR operator requires exactly 2 operands.", ""], env) :=
  fun _ _ _ => ⟨rfl, rfl⟩

/-- C2. The claim states `parse_line` returns None exactly at EOF /
closing-block / closing-parenthesis lookahead and an Expression otherwise;
in the source `parse_line` dereferences `TokenType.IF` (and later ELIF /
ELSE / FUNC_DECL), none of which are members of tokenizer.py's TokenType
(the keyword member is CONDITIONAL), so after the EOL-skipping loop every
call — including the source's own doctest input "5 A 6" and the empty
script, where the claim requires an Expression resp. None — raises
AttributeError. -/
theorem c2_parse_line_attribute_error :
    Parser.parse_line 9 (Parser.init "5 A 6".toList) =
      some (.error (.attributeError "IF"))
    ∧ Parser.parse_line 9 (Parser.init []) =
      some (.error (.attributeError "IF"))
    ∧ Parser.parse_line 9 (Parser.init "| | 3".toList) =
      some (.error (.attributeError "IF")) :=
  ⟨rfl, rfl, rfl⟩

/-- C8 (counterexample). The claim quantifies over every value `a`; for
`a = "x"` the host raises TypeError (not ZeroDivisionError), so the Error's
innermost message is the unsupported-operand text, which does not mention
division by zero. -/
theorem c8_div_by_zero_counterexample :
    Expression.evaluate 9
        (.operation (some (.constant (.str "x") (-1))) .DIVIDE
          (some (.constant (.int 0) (-1))) (-1)) env0 =
      some (.error [unsupportedOperandMsg "/" "str" "int", ""], env0)
    ∧ charListMentions "division by zero".toList
        (unsupportedOperandMsg "/" "str" "int").toList = false :=
  ⟨rfl, by decide⟩

/-- C8 (amended). For every integer `a` (the numeric case, which is what
division by zero can reach), `Operation(Constant(a), DIVIDE, Constant(0))`
evaluates to an Error value — not a host-level fault — whose innermost
traceback message mentions division by zero; for operand values that do not
support division the Error instead carries the host's type-error message
(see the counterexample). -/
theorem c8_div_by_zero_amended :
    ∀ (a : Int) (env : Environment),
      Expression.evaluate 9
          (.operation (some (.constant (.int a) (-1))) .DIVIDE
            (some (.constant (.int 0) (-1))) (-1)) env =
        some (.error [zeroDivMsg, ""], env)
      ∧ charListMentions "division by zero".toList zeroDivMsg.toList = true :=
  fun _ _ => ⟨rfl, by decide⟩

/-! ## Scanner lemmas -/

/-- The fuelled scan loop satisfies the stop equation of the source loop. -/
theorem scanEnd_stop {s : List Char} {p : Char → Bool} {i : Int}
    (h : scanCont s p i = false) : scanEnd s p i = i := by
  simp [scanEnd, scanEndAux, h]

/-- The fuelled scan loop satisfies the step equation of the source loop. -/
theorem scanEnd_step {s : List Char} {p : Char → Bool} {i : Int}
    (h : scanCont s p i = true) : scanEnd s p i = scanEnd s p (i + 1) := by
  have hlt : i < (s.length : Int) := by
    simp only [scanCont, Bool.and_eq_true, decide_eq_true_eq] at h
    exact h.1
  have hfuel : ((s.length : Int) - i).toNat + 1 =
      (((s.length : Int) - (i + 1)).toNat + 1) + 1 := by omega
  unfold scanEnd
  rw [hfuel]
  simp [scanEndAux, h]

theorem charAt_lt {s : List Char} {i : Int} {c : Char}
    (h : charAt s i = some c) : i < (s.length : Int) := by
  unfold charAt at h
  split_ifs at h with h0 h1
  · obtain ⟨hlt, -⟩ := List.getElem?_eq_some_iff.mp h
    omega
  · omega

theorem charAt_isSome {s : List Char} {i : Int} (h0 : 0 ≤ i)
    (hlt : i < (s.length : Int)) : ∃ c, charAt s i = some c := by
  have hn : i.toNat < s.length := by omega
  refine ⟨s.get ⟨i.toNat, hn⟩, ?_⟩
  unfold charAt
  rw [if_pos h0]
  exact List.getElem?_eq_getElem hn

/-- When the predicate holds for every remaining character, the scan runs to
the end of the script. -/
theorem scanEnd_all (s : List Char) (p : Char → Bool) :
    ∀ (k : Nat) (i : Int), ((s.length : Int) - i).toNat = k → 0 ≤ i →
      i ≤ (s.length : Int) →
      (∀ (j : Int) (c : Char), i ≤ j → charAt s j = some c → p c = true) →
      scanEnd s p i = (s.length : Int) := by
  intro k
  induction k with
  | zero =>
    intro i hk h0 hle hall
    have heq : i = (s.length : Int) := by omega
    subst heq
    apply scanEnd_stop
    simp [scanCont]
  | succ m ih =>
    intro i hk h0 hle hall
    have hlt : i < (s.length : Int) := by omega
    obtain ⟨c, hc⟩ := charAt_isSome h0 hlt
    have hcont : scanCont s p i = true := by
      simp [scanCont, hlt, hc, hall i c le_rfl hc]
    rw [scanEnd_step hcont]
    exact ih (i + 1) (by omega) (by omega) (by omega)
      (fun j c hj hcj => hall j c (by omega) hcj)

/-- Slicing from `a` to the length of the list is `List.drop`. -/
theorem pySlice_to_end (s : List Char) (a : Int) (h0 : 0 ≤ a)
    (hle : a ≤ (s.length : Int)) :
    pySlice s a (s.length : Int) = s.drop a.toNat := by
  show (s.take (if (s.length : Int) < 0 then max ((s.length : Int) + (s.length : Int)) 0
      else min (s.length : Int) (s.length : Int)).toNat).drop
    (if a < 0 then max ((s.length : Int) + a) 0 else min a (s.length : Int)).toNat =
    s.drop a.toNat
  rw [if_neg (by omega), if_neg (by omega)]
  have h1 : (min a (s.length : Int)).toNat = a.toNat := by omega
  have h2 : (min (s.length : Int) (s.length : Int)).toNat = s.length := by omega
  rw [h1, h2, List.take_length]

/-! ## Rotating-cipher lemmas (C3) -/

theorem TokenType.ofValue_value {v : Int} {tt : TokenType}
    (h : TokenType.ofValue v = some tt) : TokenType.value tt = v := by
  rw [TokenType.ofValue] at h
  by_cases e0 : v = 0
  · rw [if_pos e0] at h; injection h with h2; rw [← h2, e0]; rfl
  rw [if_neg e0] at h
  by_cases e1 : v = 1
  · rw [if_pos e1] at h; injection h with h2; rw [← h2, e1]; rfl
  rw [if_neg e1] at h
  by_cases e2 : v = 2
  · rw [if_pos e2] at h; injection h with h2; rw [← h2, e2]; rfl
  rw [if_neg e2] at h
  by_cases e3 : v = 3
  · rw [if_pos e3] at h; injection h with h2; rw [← h2, e3]; rfl
  rw [if_neg e3] at h
  by_cases e4 : v = 4
  · rw [if_pos e4] at h; injection h with h2; rw [← h2, e4]; rfl
  rw [if_neg e4] at h
  by_cases e5 : v = 5
  · rw [if_pos e5] at h; injection h with h2; rw [← h2, e5]; rfl
  rw [if_neg e5] at h
  by_cases e6 : v = 6
  · rw [if_pos e6] at h; injection h with h2; rw [← h2, e6]; rfl
  rw [if_neg e6] at h
  by_cases e7 : v = 7
  · rw [if_pos e7] at h; injection h with h2; rw [← h2, e7]; rfl
  rw [if_neg e7] at h
  by_cases e8 : v = 8
  · rw [if_pos e8] at h; injection h with h2; rw [← h2, e8]; rfl
  rw [if_neg e8] at h
  by_cases e9 : v = 9
  · rw [if_pos e9] at h; injection h with h2; rw [← h2, e9]; rfl
  rw [if_neg e9] at h
  by_cases e10 : v = 10
  · rw [if_pos e10] at h; injection h with h2; rw [← h2, e10]; rfl
  rw [if_neg e10] at h
  by_cases e11 : v = 11
  · rw [if_pos e11] at h; injection h with h2; rw [← h2, e11]; rfl
  rw [if_neg e11] at h
  by_cases e12 : v = 12
  · rw [if_pos e12] at h; injection h with h2; rw [← h2, e12]; rfl
  rw [if_neg e12] at h
  by_cases e13 : v = 13
  · rw [if_pos e13] at h; injection h with h2; rw [← h2, e13]; rfl
  rw [if_neg e13] at h
  by_cases e14 : v = 14
  · rw [if_pos e14] at h; injection h with h2; rw [← h2, e14]; rfl
  rw [if_neg e14] at h
  by_cases e15 : v = 15
  · rw [if_pos e15] at h; injection h with h2; rw [← h2, e15]; rfl
  rw [if_neg e15] at h
  by_cases e16 : v = 16
  · rw [if_pos e16] at h; injection h with h2; rw [← h2, e16]; rfl
  rw [if_neg e16] at h
  by_cases e17 : v = 17
  · rw [if_pos e17] at h; injection h with h2; rw [← h2, e17]; rfl
  rw [if_neg e17] at h
  by_cases e18 : v = 18
  · rw [if_pos e18] at h; injection h with h2; rw [← h2, e18]; rfl
  rw [if_neg e18] at h
  by_cases e19 : v = 19
  · rw [if_pos e19] at h; injection h with h2; rw [← h2, e19]; rfl
  rw [if_neg e19] at h
  by_cases e20 : v = 20
  · rw [if_pos e20] at h; injection h with h2; rw [← h2, e20]; rfl
  rw [if_neg e20] at h
  by_cases e21 : v = 21
  · rw [if_pos e21] at h; injection h with h2; rw [← h2, e21]; rfl
  rw [if_neg e21] at h
  by_cases e22 : v = 22
  · rw [if_pos e22] at h; injection h with h2; rw [← h2, e22]; rfl
  rw [if_neg e22] at h
  by_cases e23 : v = 23
  · rw [if_pos e23] at h; injection h with h2; rw [← h2, e23]; rfl
  rw [if_neg e23] at h
  by_cases e24 : v = 24
  · rw [if_pos e24] at h; injection h with h2; rw [← h2, e24]; rfl
  rw [if_neg e24] at h
  by_cases e25 : v = 25
  · rw [if_pos e25] at h; injection h with h2; rw [← h2, e25]; rfl
  rw [if_neg e25] at h
  by_cases e26 : v = 26
  · rw [if_pos e26] at h; injection h with h2; rw [← h2, e26]; rfl
  rw [if_neg e26] at h
  by_cases e27 : v = 27
  · rw [if_pos e27] at h; injection h with h2; rw [← h2, e27]; rfl
  rw [if_neg e27] at h
  by_cases e28 : v = 28
  · rw [if_pos e28] at h; injection h with h2; rw [← h2, e28]; rfl
  rw [if_neg e28] at h
  by_cases e29 : v = 29
  · rw [if_pos e29] at h; injection h with h2; rw [← h2, e29]; rfl
  rw [if_neg e29] at h
  by_cases e30 : v = 30
  · rw [if_pos e30] at h; injection h with h2; rw [← h2, e30]; rfl
  rw [if_neg e30] at h
  by_cases e31 : v = 31
  · rw [if_pos e31] at h; injection h with h2; rw [← h2, e31]; rfl
  rw [if_neg e31] at h
  by_cases e32 : v = 32
  · rw [if_pos e32] at h; injection h with h2; rw [← h2, e32]; rfl
  rw [if_neg e32] at h
  exact absurd h (by simp)

/-- What `_get_operator_token_from` does whenever it returns a token: the
token's value is `ord(c) - ord('A') + OFFSET - shift`, the shift is bumped
by one modulo ROTATING_TOKEN_COUNT, and nothing else changes. -/
theorem get_operator_token_from_spec (t : Tokenizer) (c : Char) (tok : Token)
    (t' : Tokenizer)
    (h : Tokenizer.get_operator_token_from t c = .ok (tok, t')) :
    tok.token_type.value =
      (c.toNat : Int) - 65 + ROTATING_TOKEN_OFFSET - t.shift
    ∧ tok.payload = Option.none
    ∧ t'.shift = (t.shift + 1) % ROTATING_TOKEN_COUNT
    ∧ t'.script = t.script ∧ t'.index = t.index
    ∧ t'.next_token = t.next_token := by
  unfold Tokenizer.get_operator_token_from at h
  cases hv : TokenType.ofValue
      ((c.toNat : Int) - 65 + ROTATING_TOKEN_OFFSET - t.shift) with
  | none => rw [hv] at h; exact absurd h (by simp)
  | some tt =>
    rw [hv] at h
    simp only [Except.ok.injEq, Prod.mk.injEq] at h
    obtain ⟨h1, h2⟩ := h
    rw [← h1, ← h2]
    exact ⟨TokenType.ofValue_value hv, rfl, rfl, rfl, rfl, rfl⟩

/-- A maximal uppercase run of length one goes through the cipher: the
produced token's value obeys the shift formula and the shift is bumped. -/
theorem get_control_flow_single (t : Tokenizer) (tok : Token) (t' : Tokenizer)
    (hrun : scanEnd t.script pyIsUpper (t.index + 1) - t.index = 1)
    (h : Tokenizer.get_control_flow_token t = .ok (tok, t')) :
    (∃ c, charAt t.script t.index = some c
      ∧ tok.token_type.value =
          (c.toNat : Int) - 65 + ROTATING_TOKEN_OFFSET - t.shift)
    ∧ t'.shift = (t.shift + 1) % ROTATING_TOKEN_COUNT := by
  unfold Tokenizer.get_control_flow_token at h
  rw [if_pos hrun] at h
  cases hc : charAt t.script t.index with
  | none => rw [hc] at h; exact absurd h (by simp)
  | some c =>
    rw [hc] at h
    obtain ⟨h1, -, h3, -, -, -⟩ := get_operator_token_from_spec _ c tok t' h
    exact ⟨⟨c, rfl, h1⟩, h3⟩

/-- A maximal uppercase run of length other than one is matched against the
keywords; the shift state is untouched. -/
theorem get_control_flow_multi (t : Tokenizer) (tok : Token) (t' : Tokenizer)
    (hrun : scanEnd t.script pyIsUpper (t.index + 1) - t.index ≠ 1)
    (h : Tokenizer.get_control_flow_token t = .ok (tok, t')) :
    t'.shift = t.shift
    ∧ (tok.token_type = .CONDITIONAL ∨ tok.token_type = .FOR_LOOP ∨
        tok.token_type = .WHILE_LOOP) := by
  unfold Tokenizer.get_control_flow_token at h
  rw [if_neg hrun] at h
  dsimp only [] at h
  split_ifs at h <;>
  · simp only [Except.ok.injEq, Prod.mk.injEq] at h
    obtain ⟨ha, hb⟩ := h
    rw [← ha, ← hb]
    simp

/-- A stored lookahead is handed over verbatim; the shift is untouched. -/
theorem get_next_token_stored (t : Tokenizer) (tok : Token)
    (hnt : t.next_token = some tok) :
    Tokenizer.get_next_token t =
      .ok (some tok, { t with next_token := Option.none }) := by
  unfold Tokenizer.get_next_token
  rw [hnt]

/-- Every `get_next_token` scan that does not land on an uppercase character
(EOF, the structural symbols, numbers, strings, names, and the silent None
fall-through) leaves the shift unchanged. -/
theorem get_next_token_shift_of_not_upper (t : Tokenizer) (r : Option Token)
    (t' : Tokenizer) (hnt : t.next_token = Option.none)
    (hnu : ∀ c, charAt t.script (scanEnd t.script pyIsSpace (t.index + 1)) =
      some c → pyIsUpper c = false)
    (h : Tokenizer.get_next_token t = .ok (r, t')) :
    t'.shift = t.shift := by
  unfold Tokenizer.get_next_token at h
  rw [hnt] at h
  dsimp only [] at h
  by_cases hend : (t.script.length : Int) ≤ scanEnd t.script pyIsSpace (t.index + 1)
  · rw [if_pos hend] at h
    simp only [Except.ok.injEq, Prod.mk.injEq] at h
    rw [← h.2]
  · rw [if_neg hend] at h
    cases hc : charAt t.script (scanEnd t.script pyIsSpace (t.index + 1)) with
    | none => rw [hc] at h; exact absurd h (by simp)
    | some c =>
      rw [hc] at h
      dsimp only [] at h
      have hup : pyIsUpper c = false := hnu c hc
      by_cases b1 : (c == ')') = true
      · rw [if_pos b1] at h
        simp only [Except.ok.injEq, Prod.mk.injEq] at h
        rw [← h.2]
      rw [if_neg b1] at h
      by_cases b2 : (c == '(') = true
      · rw [if_pos b2] at h
        simp only [Except.ok.injEq, Prod.mk.injEq] at h
        rw [← h.2]
      rw [if_neg b2] at h
      by_cases b3 : (c == '|') = true
      · rw [if_pos b3] at h
        simp only [Except.ok.injEq, Prod.mk.injEq] at h
        rw [← h.2]
      rw [if_neg b3] at h
      by_cases b4 : (c == ',') = true
      · rw [if_pos b4] at h
        simp only [Except.ok.injEq, Prod.mk.injEq] at h
        rw [← h.2]
      rw [if_neg b4] at h
      by_cases b5 : (c == '[') = true
      · rw [if_pos b5] at h
        simp only [Except.ok.injEq, Prod.mk.injEq] at h
        rw [← h.2]
      rw [if_neg b5] at h
      by_cases b6 : (c == ']') = true
      · rw [if_pos b6] at h
        simp only [Except.ok.injEq, Prod.mk.injEq] at h
        rw [← h.2]
      rw [if_neg b6] at h
      by_cases b7 : pyIsDigit c = true
      · rw [if_pos b7] at h
        simp only [Except.ok.injEq, Prod.mk.injEq] at h
        rw [← h.2]
        all_goals rfl
      rw [if_neg b7] at h
      by_cases b8 : (c == '"') = true
      · rw [if_pos b8] at h
        simp only [Except.ok.injEq, Prod.mk.injEq] at h
        rw [← h.2]
        all_goals rfl
      rw [if_neg b8] at h
      rw [hup] at h
      rw [if_neg (by simp)] at h
      by_cases b9 : pyIsAlpha c = true
      · rw [if_pos b9] at h
        simp only [Except.ok.injEq, Prod.mk.injEq] at h
        rw [← h.2]
        all_goals rfl
      rw [if_neg b9] at h
      simp only [Except.ok.injEq, Prod.mk.injEq] at h
      rw [← h.2]

/-- A scan landing on an uppercase character is exactly a
`_get_control_flow_token` call on the whitespace-skipped state. -/
theorem get_next_token_upper (t : Tokenizer) (c : Char)
    (hnt : t.next_token = Option.none)
    (hc : charAt t.script (scanEnd t.script pyIsSpace (t.index + 1)) = some c)
    (hup : pyIsUpper c = true) :
    Tokenizer.get_next_token t =
      (Tokenizer.get_control_flow_token
        { t with index := scanEnd t.script pyIsSpace (t.index + 1) }).map
        (fun p => (some p.1, p.2)) := by
  have hlt : scanEnd t.script pyIsSpace (t.index + 1) < (t.script.length : Int) :=
    charAt_lt hc
  have hupn : 65 ≤ c.toNat ∧ c.toNat ≤ 90 := by
    simpa [pyIsUpper] using hup
  have hsym : ∀ c' : Char, c'.toNat < 65 ∨ 90 < c'.toNat → (c == c') = false := by
    intro c' hc'
    rw [beq_eq_false_iff_ne]
    intro he
    subst he
    omega
  have hd : pyIsDigit c = false := by
    simp only [pyIsDigit, Bool.and_eq_false_iff, decide_eq_false_iff_not]
    right
    omega
  simp only [Tokenizer.get_next_token, hnt]
  rw [if_neg (by omega)]
  rw [hc]
  dsimp only []
  rw [hsym ')' (Or.inl (by decide)), hsym '(' (Or.inl (by decide)),
    hsym '|' (Or.inr (by decide)), hsym ',' (Or.inl (by decide)),
    hsym '[' (Or.inr (by decide)), hsym ']' (Or.inr (by decide)),
    hd, hsym '"' (Or.inl (by decide)), hup]
  rfl

/-- C3. The rotating substitution cipher: a maximal uppercase run of length
exactly one produces (when it produces a token at all) the TokenType whose
numeric value is `ord(letter) - ord('A') + ROTATING_TOKEN_OFFSET - shift`,
after which the shift counter grows by exactly one and wraps modulo
ROTATING_TOKEN_COUNT; multi-letter uppercase keyword runs (IF, FOR, WHILE)
and every other kind of token (stored lookahead, EOF, symbols, numbers,
strings, names, silent None) leave the shift unchanged. The last conjunct
ties the scanner's uppercase branch to `_get_control_flow_token`, so the
five conjuncts cover every path of `get_next_token`. -/
theorem c3_rotating_cipher_shift :
    (∀ (t : Tokenizer) (c : Char) (tok : Token) (t' : Tokenizer),
      Tokenizer.get_operator_token_from t c = .ok (tok, t') →
      tok.token_type.value =
        (c.toNat : Int) - 65 + ROTATING_TOKEN_OFFSET - t.shift
      ∧ t'.shift = (t.shift + 1) % ROTATING_TOKEN_COUNT)
    ∧ (∀ (t : Tokenizer) (tok : Token) (t' : Tokenizer),
      scanEnd t.script pyIsUpper (t.index + 1) - t.index = 1 →
      Tokenizer.get_control_flow_token t = .ok (tok, t') →
      (∃ c, charAt t.script t.index = some c
        ∧ tok.token_type.value =
            (c.toNat : Int) - 65 + ROTATING_TOKEN_OFFSET - t.shift)
      ∧ t'.shift = (t.shift + 1) % ROTATING_TOKEN_COUNT)
    ∧ (∀ (t : Tokenizer) (tok : Token) (t' : Tokenizer),
      scanEnd t.script pyIsUpper (t.index + 1) - t.index ≠ 1 →
      Tokenizer.get_control_flow_token t = .ok (tok, t') →
      t'.shift = t.shift
      ∧ (tok.token_type = .CONDITIONAL ∨ tok.token_type = .FOR_LOOP ∨
          tok.token_type = .WHILE_LOOP))
    ∧ (∀ (t : Tokenizer) (tok : Token),
      t.next_token = some tok →
      Tokenizer.get_next_token t =
        .ok (some tok, { t with next_token := Option.none }))
    ∧ (∀ (t : Tokenizer) (r : Option Token) (t' : Tokenizer),
      t.next_token = Option.none →
      (∀ c, charAt t.script (scanEnd t.script pyIsSpace (t.index + 1)) =
        some c → pyIsUpper c = false) →
      Tokenizer.get_next_token t = .ok (r, t') → t'.shift = t.shift)
    ∧ (∀ (t : Tokenizer) (c : Char),
      t.next_token = Option.none →
      charAt t.script (scanEnd t.script pyIsSpace (t.index + 1)) = some c →
      pyIsUpper c = true →
      Tokenizer.get_next_token t =
        (Tokenizer.get_control_flow_token
          { t with index := scanEnd t.script pyIsSpace (t.index + 1) }).map
          (fun p => (some p.1, p.2))) :=
  ⟨fun t c tok t' h =>
     (get_operator_token_from_spec t c tok t' h).imp id (fun hh => hh.2.1),
   fun t tok t' hrun h => get_control_flow_single t tok t' hrun h,
   fun t tok t' hrun h => get_control_flow_multi t tok t' hrun h,
   fun t tok hnt => get_next_token_stored t tok hnt,
   fun t r t' hnt hnu h => get_next_token_shift_of_not_upper t r t' hnt hnu h,
   fun t c hnt hc hup => get_next_token_upper t c hnt hc hup⟩

/-- C3 (witness): concrete applications of the cipher — 'B' at shift 0 gives
value 17 (SUBTRACT, matching the tokenizer's own doctest) and bumps the
shift to 1; the keyword run "IF" at shift 5 gives CONDITIONAL and keeps
shift 5; scanning "5" at shift 3 keeps shift 3; scanning "B" dispatches to
`_get_control_flow_token`. -/
theorem c3_rotating_cipher_shift_witness :
    ((⟨.SUBTRACT, Option.none⟩ : Token).token_type.value =
        (('B'.toNat : Int) - 65 + ROTATING_TOKEN_OFFSET - 0)
      ∧ (⟨['B'], 1, (0 + 1) % ROTATING_TOKEN_COUNT, Option.none⟩ :
          Tokenizer).shift = (0 + 1) % ROTATING_TOKEN_COUNT)
    ∧ ((⟨"IF".toList, 2, 5, Option.none⟩ : Tokenizer).shift = 5
      ∧ ((⟨.CONDITIONAL, Option.none⟩ : Token).token_type = .CONDITIONAL ∨
          (⟨.CONDITIONAL, Option.none⟩ : Token).token_type = .FOR_LOOP ∨
          (⟨.CONDITIONAL, Option.none⟩ : Token).token_type = .WHILE_LOOP))
    ∧ (⟨['5'], 0, 3, Option.none⟩ : Tokenizer).shift = 3
    ∧ Tokenizer.get_next_token (Tokenizer.init ['B']) =
        (Tokenizer.get_control_flow_token
          { Tokenizer.init ['B'] with
            index := scanEnd ['B'] pyIsSpace ((-1 : Int) + 1) }).map
          (fun p => (some p.1, p.2)) := by
  refine ⟨?_, ?_, ?_, ?_⟩
  · exact c3_rotating_cipher_shift.1 ⟨['B'], 1, 0, Option.none⟩ 'B'
      ⟨.SUBTRACT, Option.none⟩ ⟨['B'], 1, 1, Option.none⟩ rfl
  · exact c3_rotating_cipher_shift.2.2.1 ⟨"IF".toList, 0, 5, Option.none⟩
      ⟨.CONDITIONAL, Option.none⟩ ⟨"IF".toList, 2, 5, Option.none⟩
      (by decide) rfl
  · refine c3_rotating_cipher_shift.2.2.2.2.1 ⟨['5'], -1, 3, Option.none⟩
      (some ⟨.INT, some (.intP 5)⟩) ⟨['5'], 0, 3, Option.none⟩ rfl ?_ (by rfl)
    intro c hc
    rw [show charAt ['5'] (scanEnd ['5'] pyIsSpace ((-1 : Int) + 1)) =
      some '5' from rfl] at hc
    injection hc with hc2
    rw [← hc2]
    decide
  · exact c3_rotating_cipher_shift.2.2.2.2.2 (Tokenizer.init ['B']) 'B'
      rfl rfl rfl

/-- C9. `peek_next_token` is idempotent: once a peek has produced a token,
every further peek returns the same token and the same state, the next
`get_next_token` returns exactly that token while clearing the stored
lookahead, and the cleared state scans from the position already advanced
past the token (script, index and shift are untouched by the hand-off). -/
theorem c9_peek_idempotent :
    ∀ (t : Tokenizer) (tok : Token) (t' : Tokenizer),
      Tokenizer.peek_next_token t = .ok (some tok, t') →
      Tokenizer.peek_next_token t' = .ok (some tok, t')
      ∧ Tokenizer.get_next_token t' =
          .ok (some tok, { t' with next_token := Option.none })
      ∧ ({ t' with next_token := Option.none } : Tokenizer).script = t'.script
      ∧ ({ t' with next_token := Option.none } : Tokenizer).index = t'.index
      ∧ ({ t' with next_token := Option.none } : Tokenizer).shift = t'.shift := by
  intro t tok t' h
  have hnt : t'.next_token = some tok := by
    unfold Tokenizer.peek_next_token at h
    cases hn : t.next_token with
    | some tok0 =>
      rw [hn] at h
      simp only [Except.ok.injEq, Prod.mk.injEq] at h
      obtain ⟨h1, h2⟩ := h
      rw [← h2, hn, h1]
    | none =>
      rw [hn] at h
      cases hg : Tokenizer.get_next_token t with
      | error e => rw [hg] at h; exact absurd h (by simp)
      | ok pr =>
        obtain ⟨r, t1⟩ := pr
        rw [hg] at h
        simp only [Except.ok.injEq, Prod.mk.injEq] at h
        obtain ⟨h1, h2⟩ := h
        rw [← h2, h1]
  refine ⟨?_, ?_, rfl, rfl, rfl⟩
  · unfold Tokenizer.peek_next_token
    rw [hnt]
  · unfold Tokenizer.get_next_token
    rw [hnt]

/-- C9 (witness): the peeked INT 5 of script "5 A 6" is returned unchanged
by a second peek and handed over by the next `get_next_token`. -/
theorem c9_peek_idempotent_witness :
    Tokenizer.peek_next_token
        { script := "5 A 6".toList, index := 0, shift := 0,
          next_token := some ⟨.INT, some (.intP 5)⟩ } =
      .ok (some (⟨.INT, some (.intP 5)⟩ : Token),
        { script := "5 A 6".toList, index := 0, shift := 0,
          next_token := some ⟨.INT, some (.intP 5)⟩ })
    ∧ Tokenizer.get_next_token
        { script := "5 A 6".toList, index := 0, shift := 0,
          next_token := some ⟨.INT, some (.intP 5)⟩ } =
      .ok (some (⟨.INT, some (.intP 5)⟩ : Token),
        { script := "5 A 6".toList, index := 0, shift := 0,
          next_token := Option.none }) := by
  have h := c9_peek_idempotent (Tokenizer.init "5 A 6".toList)
    ⟨.INT, some (.intP 5)⟩
    { script := "5 A 6".toList, index := 0, shift := 0,
      next_token := some ⟨.INT, some (.intP 5)⟩ } rfl
  exact ⟨h.1, h.2.1⟩

/-- C10. A double quote with no later closing quote: `get_next_token` at the
quote returns a STRING token (no Error, no fault) whose payload is every
character strictly after the quote up to the end of the input, and the
immediately following `get_next_token` returns the EOF token. -/
theorem c10_unterminated_string :
    ∀ (t : Tokenizer) (i : Int),
      t.next_token = Option.none → t.index + 1 = i → 0 ≤ i →
      charAt t.script i = some '"' →
      (∀ j : Int, i < j → charAt t.script j ≠ some '"') →
      Tokenizer.get_next_token t =
        .ok (some ⟨.STRING, some (.strP (t.script.drop (i + 1).toNat))⟩,
          { t with index := (t.script.length : Int) })
      ∧ Tokenizer.get_next_token { t with index := (t.script.length : Int) } =
        .ok (some ⟨.EOF, Option.none⟩,
          { t with index := (t.script.length : Int) + 1 }) := by
  intro t i hnt hidx h0 hq hnoq
  have hlt : i < (t.script.length : Int) := charAt_lt hq
  have hws : scanEnd t.script pyIsSpace (t.index + 1) = i := by
    rw [hidx]
    apply scanEnd_stop
    simp [scanCont, hq, pyIsSpace]
  have he : scanEnd t.script (fun c => !(c == '"')) (i + 1) =
      (t.script.length : Int) := by
    apply scanEnd_all t.script _ (((t.script.length : Int) - (i + 1)).toNat)
      (i + 1) rfl (by omega) (by omega)
    intro j c hj hcj
    have hne : c ≠ '"' := by
      intro hcc
      exact hnoq j (by omega) (hcc ▸ hcj)
    simp [hne]
  have hslice : pySlice t.script (i + 1) (t.script.length : Int) =
      t.script.drop (i + 1).toNat :=
    pySlice_to_end t.script (i + 1) (by omega) (by omega)
  constructor
  · unfold Tokenizer.get_next_token
    rw [hnt]
    simp only [hws, Tokenizer.get_string_token, he, hslice]
    rw [if_neg (by simp; omega)]
    rw [hq]
    simp [pyIsDigit, he, hslice]
  · unfold Tokenizer.get_next_token
    have hws2 : scanEnd t.script pyIsSpace ((t.script.length : Int) + 1) =
        (t.script.length : Int) + 1 := by
      apply scanEnd_stop
      have hfalse : decide (((t.script.length : Int) + 1) < (t.script.length : Int)) =
          false := by
        simp only [decide_eq_false_iff_not]
        omega
      simp [scanCont, hfalse]
    simp only [hnt, hws2]
    rw [if_pos (by simp)]

/-- C10 (witness): the unterminated script `"ab` yields STRING "ab" and then
EOF. -/
theorem c10_unterminated_string_witness :
    Tokenizer.get_next_token (Tokenizer.init "\"ab".toList) =
      .ok (some ⟨.STRING, some (.strP (("\"ab".toList).drop 1))⟩,
        { script := "\"ab".toList, index := 3, shift := 0,
          next_token := Option.none })
    ∧ Tokenizer.get_next_token
        { script := "\"ab".toList, index := 3, shift := 0,
          next_token := Option.none } =
      .ok (some ⟨.EOF, Option.none⟩,
        { script := "\"ab".toList, index := 4, shift := 0,
          next_token := Option.none }) := by
  have hnq : ∀ j : Int, (0 : Int) < j →
      charAt ("\"ab".toList) j ≠ some '"' := by
    intro j hj hcon
    have hlen : ("\"ab".toList).length = 3 := rfl
    by_cases h1 : j = 1
    · subst h1; revert hcon; decide
    · by_cases h2 : j = 2
      · subst h2; revert hcon; decide
      · have h0j : (0 : Int) ≤ j := by omega
        have h3 : (3 : Int) ≤ j := by omega
        unfold charAt at hcon
        rw [if_pos h0j] at hcon
        rw [List.getElem?_eq_none (by omega)] at hcon
        exact Option.noConfusion hcon
  exact c10_unterminated_string (Tokenizer.init "\"ab".toList) 0 rfl rfl
    (le_refl 0) rfl hnq

/-! ## Generic evaluator lemmas shared by the claim theorems -/

theorem isError_error (tr : List String) : isError (.error tr) = true := rfl

theorem isError_retVal (v : Value) : isError (.retVal v) = false := rfl

theorem isRetVal_retVal (v : Value) : isRetVal (.retVal v) = true := rfl

theorem appendOrigin_error (tr : List String) (o : Int) :
    appendOrigin (.error tr) o = .error (tr ++ [errEntry "" o]) := rfl

theorem appendOrigin_retVal (v : Value) (o : Int) :
    appendOrigin (.retVal v) o = .retVal v := rfl

theorem parentOf_mk (d : Dict) (p : Environment) :
    Environment.parentOf ⟨d, some p⟩ = p := rfl

/-- A Block statement evaluating to a RetVal short-circuits: the RetVal is
returned unmodified and the remaining statements are never evaluated. -/
theorem evaluate_block_cons_retVal (n : Nat) (e : Expression)
    (rest : List Expression) (env : Environment) (v : Value) (env1 : Environment)
    (h : Expression.evaluate n e env = some (.retVal v, env1)) :
    Expression.evaluate (n + 1) (.block (e :: rest)) env =
      some (.retVal v, env1) := by
  simp [Expression.evaluate, evalBlockSteps, h, isError_error, isRetVal_retVal,
    isError_retVal, appendOrigin_retVal]

/-- A Block statement evaluating to an Error short-circuits with exactly one
appended (empty) traceback entry — Block origin is always -1. -/
theorem evaluate_block_cons_error (n : Nat) (e : Expression)
    (rest : List Expression) (env : Environment) (tr : List String)
    (env1 : Environment)
    (h : Expression.evaluate n e env = some (.error tr, env1)) :
    Expression.evaluate (n + 1) (.block (e :: rest)) env =
      some (.error (tr ++ [""]), env1) := by
  simp [Expression.evaluate, evalBlockSteps, h, isError_error, appendOrigin_error,
    errAppend, errEntry]

/-- A required left operand evaluating to an Error makes the Operation
return it with exactly one appended entry, skipping the right operand. -/
theorem evaluate_op_left_error (n : Nat) (le : Expression) (op : TokenType)
    (r : Option Expression) (o : Int) (env : Environment) (tr : List String)
    (env1 : Environment) (nr : Bool)
    (fn : List Value → Environment → Value × Environment)
    (hop : OPERATORS op = some (true, nr, fn))
    (h : Expression.evaluate n le env = some (.error tr, env1)) :
    Expression.evaluate (n + 1) (.operation (some le) op r o) env =
      some (.error (tr ++ [errEntry "" o]), env1) := by
  simp [Expression.evaluate, evalOp, hop, collectOperand, h, isError_error,
    appendOrigin_error]

/-- A required right operand evaluating to an Error (after a successful left
operand) makes the Operation return it with exactly one appended entry. -/
theorem evaluate_op_right_error (n : Nat) (le re : Expression) (op : TokenType)
    (o : Int) (env : Environment) (lv : Value) (env1 : Environment)
    (tr : List String) (env2 : Environment)
    (fn : List Value → Environment → Value × Environment)
    (hop : OPERATORS op = some (true, true, fn))
    (hl : Expression.evaluate n le env = some (lv, env1))
    (hlv : isError lv = false)
    (h : Expression.evaluate n re env1 = some (.error tr, env2)) :
    Expression.evaluate (n + 1) (.operation (some le) op (some re) o) env =
      some (.error (tr ++ [errEntry "" o]), env2) := by
  simp [Expression.evaluate, evalOp, hop, collectOperand, hl, hlv, h,
    isError_error, appendOrigin_error]

/-- Nesting d Blocks around an erroring expression appends exactly d empty
entries, one per level. -/
theorem evaluate_nestBlocks_error (d n : Nat) (e : Expression)
    (env : Environment) (tr : List String) (env1 : Environment)
    (h : Expression.evaluate n e env = some (.error tr, env1)) :
    Expression.evaluate (n + d) (nestBlocks d e) env =
      some (.error (tr ++ List.replicate d ""), env1) := by
  induction d with
  | zero => simpa [nestBlocks] using h
  | succ k ih =>
    have step := evaluate_block_cons_error (n + k) (nestBlocks k e) []
      env (tr ++ List.replicate k "") env1 ih
    have harith : n + (k + 1) = (n + k) + 1 := by omega
    rw [harith]
    show Expression.evaluate ((n + k) + 1) (.block [nestBlocks k e]) env = _
    rw [step]
    have : (tr ++ List.replicate k "") ++ [""] = tr ++ List.replicate (k + 1) "" := by
      rw [List.replicate_succ' k, List.append_assoc]
    rw [this]

/-- While: a truthy condition followed by a body yielding a RetVal returns
that RetVal unmodified (the per-iteration child scope is popped). -/
theorem evalWhile_body_retVal (ev : Evaluator) (ce be : Expression) (o : Int)
    (m : Nat) (env : Environment) (cv : Value) (env1 : Environment) (v : Value)
    (f : Dict) (env2 : Environment)
    (hc : ev ce env = some (cv, env1)) (hce : isError cv = false)
    (hct : pyBool cv = true)
    (hb : ev be ⟨Dict.empty, some env1⟩ = some (.retVal v, Environment.mk f (some env2))) :
    evalWhile ev (some ce) (some be) o (m + 1) env = some (.retVal v, env2) := by
  simp [evalWhile, loopCond, hc, hce, hct, hb, isError_error, isError_retVal,
    isRetVal_retVal, parentOf_mk]

/-- For: the init expression yielding a RetVal makes the whole loop return
it unmodified without any iteration (and the loop scope is popped). -/
theorem evaluate_for_first_retVal (n : Nat) (f : Expression)
    (c r b : Option Expression) (o : Int) (env : Environment) (v : Value)
    (lf : Dict) (lp : Environment)
    (h : Expression.evaluate n f ⟨Dict.empty, some env⟩ =
      some (.retVal v, Environment.mk lf (some lp))) :
    Expression.evaluate (n + 1) (.forLoop (some f) c r b o) env =
      some (.retVal v, lp) := by
  simp [Expression.evaluate, runOptStep, h, isError_retVal, isRetVal_retVal,
    parentOf_mk]

/-- For: a body yielding a RetVal stops the loop and returns it unmodified
(the step expression and later iterations are never evaluated). -/
theorem evalFor_body_retVal (ev : Evaluator) (ce be : Expression)
    (r : Option Expression) (o : Int) (m : Nat) (env : Environment)
    (cv : Value) (env1 : Environment) (v : Value) (env2 : Environment)
    (hc : ev ce env = some (cv, env1)) (hce : isError cv = false)
    (hct : pyBool cv = true)
    (hb : ev be env1 = some (.retVal v, env2)) :
    evalFor ev (some ce) (some be) r o (m + 1) env = some (.retVal v, env2) := by
  simp [evalFor, loopCond, runOptStep, hc, hce, hct, hb, isError_retVal,
    isRetVal_retVal]

/-- For: a step (on_rpt) expression yielding a RetVal stops the loop and
returns it unmodified. -/
theorem evalFor_step_retVal (ev : Evaluator) (ce be re : Expression) (o : Int)
    (m : Nat) (env : Environment) (cv : Value) (env1 : Environment)
    (bv : Value) (env2 : Environment) (v : Value) (env3 : Environment)
    (hc : ev ce env = some (cv, env1)) (hce : isError cv = false)
    (hct : pyBool cv = true)
    (hb : ev be env1 = some (bv, env2)) (hbe : isError bv = false)
    (hbr : isRetVal bv = false)
    (hr : ev re env2 = some (.retVal v, env3)) :
    evalFor ev (some ce) (some be) (some re) o (m + 1) env =
      some (.retVal v, env3) := by
  simp [evalFor, loopCond, runOptStep, hc, hce, hct, hb, hbe, hbr, hr,
    isError_retVal, isRetVal_retVal]

/-- Function: a body yielding a RetVal is unwrapped — `result.evaluate(env)`
evaluates the RetVal (a Constant) against the scope Function.evaluate
received, i.e. the caller's threaded scope `env1`, not the popped callee
block frame `f`. -/
theorem evaluate_function_retVal (n : Nat) (ps : List String)
    (code : Expression) (o : Int) (env : Environment) (v : Value) (f : Dict)
    (env1 : Environment)
    (h : Expression.evaluate n code ⟨Dict.empty, some env⟩ =
      some (.retVal v, Environment.mk f (some env1))) :
    Expression.evaluate (n + 1) (.functionDef ps code o) env =
      some (v, env1) := by
  simp [Expression.evaluate, h, isError_retVal, parentOf_mk]

/-- For: a condition evaluating falsy ends the loop, returning Python None
and the scope as the condition left it. -/
theorem evalFor_cond_false (ev : Evaluator) (ce : Expression)
    (b r : Option Expression) (o : Int) (m : Nat) (env : Environment)
    (cv : Value) (env1 : Environment)
    (hc : ev ce env = some (cv, env1)) (hce : isError cv = false)
    (hcf : pyBool cv = false) :
    evalFor ev (some ce) b r o (m + 1) env = some (.noneV, env1) := by
  simp [evalFor, loopCond, hc, hce, hcf]

/-- For: one full iteration — truthy condition, body and step all evaluated
in the same threaded scope (no child scope is created anywhere) — continues
the loop on the updated scope. -/
theorem evalFor_iterate (ev : Evaluator) (ce be re : Expression) (o : Int)
    (m : Nat) (env : Environment) (cv : Value) (env1 : Environment)
    (bv : Value) (env2 : Environment) (rv : Value) (env3 : Environment)
    (hc : ev ce env = some (cv, env1)) (hce : isError cv = false)
    (hct : pyBool cv = true)
    (hb : ev be env1 = some (bv, env2)) (hbe : isError bv = false)
    (hbr : isRetVal bv = false)
    (hr : ev re env2 = some (rv, env3)) (hre : isError rv = false)
    (hrr : isRetVal rv = false) :
    evalFor ev (some ce) (some be) (some re) o (m + 1) env =
      evalFor ev (some ce) (some be) (some re) o m env3 := by
  simp [evalFor, loopCond, runOptStep, hc, hce, hct, hb, hbe, hbr, hr, hre, hrr]

/-- For: the loop creates exactly one child scope (parent = the enclosing
scope), evaluates init once in it, and delegates every iteration to that
same scope; the scope is popped when the loop returns. -/
theorem evaluate_forLoop_structure (n : Nat) (f : Expression)
    (c b r : Option Expression) (o : Int) (env : Environment) (v : Value)
    (le : Environment)
    (h : Expression.evaluate n f ⟨Dict.empty, some env⟩ = some (v, le))
    (he : isError v = false) (hr : isRetVal v = false) :
    Expression.evaluate (n + 1) (.forLoop (some f) c r b o) env =
      (evalFor (Expression.evaluate n) c b r o n le).map
        (fun p => (p.1, Environment.parentOf p.2)) := by
  simp only [Expression.evaluate, runOptStep, h, he, hr, Bool.false_eq_true,
    if_false]
  cases evalFor (Expression.evaluate n) c b r o n le with
  | none => rfl
  | some p => rfl

/-- C4 (counterexample). The claim includes loop conditions among the
positions from which a RetVal is propagated unchanged; in the source a
RetVal produced by a While (or For) condition is not checked for, falls into
the bool() coercion (objects are truthy), and the loop keeps running: here
the condition yields RetVal(0) yet the evaluation returns the body's
RetVal(1), not the condition's RetVal. -/
theorem c4_retval_propagation_counterexample :
    Expression.evaluate 9 retCondDemo env0 = some (.retVal (.int 0), env0)
    ∧ Expression.evaluate 9 whileRetCondDemo env0 =
        some (.retVal (.int 1), env0)
    ∧ Value.retVal (.int 1) ≠ Value.retVal (.int 0) :=
  ⟨rfl, rfl, by decide⟩

/-- C4 (amended). A RetVal produced by a Block statement, by a ForLoop's
init, body or step, or by a WhileLoop's body is returned unmodified without
evaluating any later statement or iteration; a RetVal produced by a While/For
*condition*, however, is coerced to boolean true and the loop continues.
Only Function evaluation unwraps a RetVal, turning it into the contained
value by evaluating it against the scope Function.evaluate received (the
caller's threaded scope), not the callee's popped block scope. -/
theorem c4_retval_propagation_amended :
    (∀ (n : Nat) (e : Expression) (rest : List Expression) (env : Environment)
        (v : Value) (env1 : Environment),
      Expression.evaluate n e env = some (.retVal v, env1) →
      Expression.evaluate (n + 1) (.block (e :: rest)) env =
        some (.retVal v, env1))
    ∧ (∀ (ev : Evaluator) (ce be : Expression) (o : Int) (m : Nat)
        (env : Environment) (cv : Value) (env1 : Environment) (v : Value)
        (f : Dict) (env2 : Environment),
      ev ce env = some (cv, env1) → isError cv = false → pyBool cv = true →
      ev be ⟨Dict.empty, some env1⟩ =
        some (.retVal v, Environment.mk f (some env2)) →
      evalWhile ev (some ce) (some be) o (m + 1) env = some (.retVal v, env2))
    ∧ (∀ (n : Nat) (f : Expression) (c r b : Option Expression) (o : Int)
        (env : Environment) (v : Value) (lf : Dict) (lp : Environment),
      Expression.evaluate n f ⟨Dict.empty, some env⟩ =
        some (.retVal v, Environment.mk lf (some lp)) →
      Expression.evaluate (n + 1) (.forLoop (some f) c r b o) env =
        some (.retVal v, lp))
    ∧ (∀ (ev : Evaluator) (ce be : Expression) (r : Option Expression)
        (o : Int) (m : Nat) (env : Environment) (cv : Value)
        (env1 : Environment) (v : Value) (env2 : Environment),
      ev ce env = some (cv, env1) → isError cv = false → pyBool cv = true →
      ev be env1 = some (.retVal v, env2) →
      evalFor ev (some ce) (some be) r o (m + 1) env = some (.retVal v, env2))
    ∧ (∀ (ev : Evaluator) (ce be re : Expression) (o : Int) (m : Nat)
        (env : Environment) (cv : Value) (env1 : Environment) (bv : Value)
        (env2 : Environment) (v : Value) (env3 : Environment),
      ev ce env = some (cv, env1) → isError cv = false → pyBool cv = true →
      ev be env1 = some (bv, env2) → isError bv = false → isRetVal bv = false →
      ev re env2 = some (.retVal v, env3) →
      evalFor ev (some ce) (some be) (some re) o (m + 1) env =
        some (.retVal v, env3))
    ∧ (∀ (n : Nat) (ps : List String) (code : Expression) (o : Int)
        (env : Environment) (v : Value) (f : Dict) (env1 : Environment),
      Expression.evaluate n code ⟨Dict.empty, some env⟩ =
        some (.retVal v, Environment.mk f (some env1)) →
      Expression.evaluate (n + 1) (.functionDef ps code o) env =
        some (v, env1)) :=
  ⟨fun n e rest env v env1 h => evaluate_block_cons_retVal n e rest env v env1 h,
   fun ev ce be o m env cv env1 v f env2 hc hce hct hb =>
     evalWhile_body_retVal ev ce be o m env cv env1 v f env2 hc hce hct hb,
   fun n f c r b o env v lf lp h =>
     evaluate_for_first_retVal n f c r b o env v lf lp h,
   fun ev ce be r o m env cv env1 v env2 hc hce hct hb =>
     evalFor_body_retVal ev ce be r o m env cv env1 v env2 hc hce hct hb,
   fun ev ce be re o m env cv env1 bv env2 v env3 hc hce hct hb hbe hbr hr =>
     evalFor_step_retVal ev ce be re o m env cv env1 bv env2 v env3
       hc hce hct hb hbe hbr hr,
   fun n ps code o env v f env1 h =>
     evaluate_function_retVal n ps code o env v f env1 h⟩

/-- C4 (witness): the amended theorem applied at concrete inputs — a Block
whose first statement returns RetVal(7) skips its (erroring) second
statement, and a Function whose body returns RetVal(7) unwraps it to 7. -/
theorem c4_retval_propagation_amended_witness :
    Expression.evaluate 3
        (.block [.operation Option.none .RETURN
            (some (.constant (.int 7) (-1))) (-1),
          .name "zz" (-1)]) env0 =
      some (.retVal (.int 7), env0)
    ∧ Expression.evaluate 4
        (.functionDef []
          (.block [.operation Option.none .RETURN
            (some (.constant (.int 7) (-1))) (-1)]) (-1)) env0 =
      some (.int 7, env0) :=
  ⟨c4_retval_propagation_amended.1 2
      (.operation Option.none .RETURN (some (.constant (.int 7) (-1))) (-1))
      [.name "zz" (-1)] env0 (.int 7) env0 rfl,
   c4_retval_propagation_amended.2.2.2.2.2 3 []
      (.block [.operation Option.none .RETURN
        (some (.constant (.int 7) (-1))) (-1)]) (-1) env0 (.int 7) []
      env0 rfl⟩

/-- C5. Every evaluation step of Block and Operation that receives an Error
from a delegated sub-expression appends exactly one (possibly empty) entry
to its traceback before returning it; consequently an Error raised inside d
nested Blocks gains exactly one entry per level, so after full propagation
it has at least d entries and the length strictly grows at each level. -/
theorem c5_error_traceback_growth :
    (∀ (n : Nat) (e : Expression) (rest : List Expression) (env : Environment)
        (tr : List String) (env1 : Environment),
      Expression.evaluate n e env = some (.error tr, env1) →
      Expression.evaluate (n + 1) (.block (e :: rest)) env =
        some (.error (tr ++ [""]), env1)
      ∧ (tr ++ [""]).length = tr.length + 1)
    ∧ (∀ (n : Nat) (le : Expression) (op : TokenType) (r : Option Expression)
        (o : Int) (env : Environment) (tr : List String) (env1 : Environment)
        (nr : Bool) (fn : List Value → Environment → Value × Environment),
      OPERATORS op = some (true, nr, fn) →
      Expression.evaluate n le env = some (.error tr, env1) →
      Expression.evaluate (n + 1) (.operation (some le) op r o) env =
        some (.error (tr ++ [errEntry "" o]), env1))
    ∧ (∀ (n : Nat) (le re : Expression) (op : TokenType) (o : Int)
        (env : Environment) (lv : Value) (env1 : Environment)
        (tr : List String) (env2 : Environment)
        (fn : List Value → Environment → Value × Environment),
      OPERATORS op = some (true, true, fn) →
      Expression.evaluate n le env = some (lv, env1) → isError lv = false →
      Expression.evaluate n re env1 = some (.error tr, env2) →
      Expression.evaluate (n + 1) (.operation (some le) op (some re) o) env =
        some (.error (tr ++ [errEntry "" o]), env2))
    ∧ (∀ (d n : Nat) (e : Expression) (env : Environment) (tr : List String)
        (env1 : Environment),
      Expression.evaluate n e env = some (.error tr, env1) →
      Expression.evaluate (n + d) (nestBlocks d e) env =
        some (.error (tr ++ List.replicate d ""), env1)
      ∧ d ≤ (tr ++ List.replicate d "").length) :=
  ⟨fun n e rest env tr env1 h =>
     ⟨evaluate_block_cons_error n e rest env tr env1 h, by simp⟩,
   fun n le op r o env tr env1 nr fn hop h =>
     evaluate_op_left_error n le op r o env tr env1 nr fn hop h,
   fun n le re op o env lv env1 tr env2 fn hop hl hlv h =>
     evaluate_op_right_error n le re op o env lv env1 tr env2 fn hop hl hlv h,
   fun d n e env tr env1 h =>
     ⟨evaluate_nestBlocks_error d n e env tr env1 h, by simp⟩⟩

/-- C5 (witness): the nesting part applied to the undefined name `zz` at
depth 3 — the Error leaves `Name.evaluate` with 2 entries and gains one per
Block, ending with 5. -/
theorem c5_error_traceback_growth_witness :
    Expression.evaluate 4 (nestBlocks 3 (.name "zz" (-1))) env0 =
      some (.error ([nameUndefinedMsg "zz", ""] ++ List.replicate 3 ""), env0)
    ∧ 3 ≤ ([nameUndefinedMsg "zz", ""] ++ List.replicate 3 "").length :=
  c5_error_traceback_growth.2.2.2 3 1 (.name "zz" (-1)) env0
    [nameUndefinedMsg "zz", ""] env0 rfl

/-- C7. ForLoop evaluation creates exactly one child scope for the whole
loop (parent = enclosing scope), evaluates init once in it, re-evaluates the
condition in that same scope before each iteration, evaluates body then step
in that same single scope (no per-iteration child), and stops when the
condition is falsy; concretely, the loop with header (i=0; i<5; i=i+1) and
body `out = out*10 + i` visits i = 0,1,2,3,4 in order (out ends at 1234) and
the loop scope's binding of i is 5 after termination. -/
theorem c7_forloop_single_scope :
    (∀ (n : Nat) (f : Expression) (c b r : Option Expression) (o : Int)
        (env : Environment) (v : Value) (le : Environment),
      Expression.evaluate n f ⟨Dict.empty, some env⟩ = some (v, le) →
      isError v = false → isRetVal v = false →
      Expression.evaluate (n + 1) (.forLoop (some f) c r b o) env =
        (evalFor (Expression.evaluate n) c b r o n le).map
          (fun p => (p.1, Environment.parentOf p.2)))
    ∧ (∀ (ev : Evaluator) (ce : Expression) (b r : Option Expression)
        (o : Int) (m : Nat) (env : Environment) (cv : Value)
        (env1 : Environment),
      ev ce env = some (cv, env1) → isError cv = false → pyBool cv = false →
      evalFor ev (some ce) b r o (m + 1) env = some (.noneV, env1))
    ∧ (∀ (ev : Evaluator) (ce be re : Expression) (o : Int) (m : Nat)
        (env : Environment) (cv : Value) (env1 : Environment) (bv : Value)
        (env2 : Environment) (rv : Value) (env3 : Environment),
      ev ce env = some (cv, env1) → isError cv = false → pyBool cv = true →
      ev be env1 = some (bv, env2) → isError bv = false → isRetVal bv = false →
      ev re env2 = some (rv, env3) → isError rv = false → isRetVal rv = false →
      evalFor ev (some ce) (some be) (some re) o (m + 1) env =
        evalFor ev (some ce) (some be) (some re) o m env3)
    ∧ Expression.evaluate 40 forLoopDemo outEnv0 =
        some (.noneV, ⟨[("out", .int 1234)], Option.none⟩)
    ∧ evalFor (Expression.evaluate 39) (some forLoopCond) (some forLoopBody)
        (some forLoopStep) (-1) 39 ⟨[("i", .int 0)], some outEnv0⟩ =
        some (.noneV, ⟨[("i", .int 5)],
          some ⟨[("out", .int 1234)], Option.none⟩⟩) :=
  ⟨fun n f c b r o env v le h he hr =>
     evaluate_forLoop_structure n f c b r o env v le h he hr,
   fun ev ce b r o m env cv env1 hc hce hcf =>
     evalFor_cond_false ev ce b r o m env cv env1 hc hce hcf,
   fun ev ce be re o m env cv env1 bv env2 rv env3 hc hce hct hb hbe hbr
       hr hre hrr =>
     evalFor_iterate ev ce be re o m env cv env1 bv env2 rv env3
       hc hce hct hb hbe hbr hr hre hrr,
   rfl, rfl⟩

/-- C7 (witness): the structural part applied to the demo loop — after init
runs once in the fresh child scope, the whole loop is the iteration of that
single scope, and the scope is popped on return. -/
theorem c7_forloop_single_scope_witness :
    Expression.evaluate 40 forLoopDemo outEnv0 =
      (evalFor (Expression.evaluate 39) (some forLoopCond) (some forLoopBody)
        (some forLoopStep) (-1) 39 ⟨[("i", .int 0)], some outEnv0⟩).map
        (fun p => (p.1, Environment.parentOf p.2)) :=
  c7_forloop_single_scope.1 39 forLoopInit (some forLoopCond)
    (some forLoopBody) (some forLoopStep) (-1) outEnv0 .noneV
    ⟨[("i", .int 0)], some outEnv0⟩ rfl rfl rfl

/-! ## Environment lemmas (C6) -/

theorem Dict.contains_eq_false_find {d : Dict} {nm : String}
    (h : Dict.contains d nm = false) : Dict.find d nm = Option.none := by
  induction d with
  | nil => rfl
  | cons hd tl ih =>
    obtain ⟨k, w⟩ := hd
    simp only [Dict.contains, Bool.or_eq_false_iff] at h
    simp only [Dict.find, h.1]
    simp only [Bool.false_eq_true, if_false]
    exact ih h.2

theorem Dict.find_set_self (d : Dict) (nm : String) (v : Value) :
    Dict.find (Dict.set d nm v) nm = some v := by
  induction d with
  | nil => simp [Dict.set, Dict.find]
  | cons hd tl ih =>
    obtain ⟨k, w⟩ := hd
    by_cases hk : k == nm
    · simp [Dict.set, hk, Dict.find]
    · simp only [Bool.not_eq_true] at hk
      simp [Dict.set, hk, Dict.find, ih]

theorem Dict.find_set_other (d : Dict) (nm nm' : String) (v : Value)
    (h : nm' ≠ nm) : Dict.find (Dict.set d nm v) nm' = Dict.find d nm' := by
  have hb : (nm == nm') = false := by
    simp only [beq_eq_false_iff_ne, ne_eq]
    exact fun he => h he.symm
  induction d with
  | nil => simp [Dict.set, Dict.find, hb]
  | cons hd tl ih =>
    obtain ⟨k, w⟩ := hd
    by_cases hk : k == nm
    · have hkeq : k = nm := by simpa using hk
      simp [Dict.set, hk, Dict.find, hb, hkeq]
    · simp only [Bool.not_eq_true] at hk
      simp [Dict.set, hk, Dict.find, ih]

theorem Dict.keys_cons (k : String) (w : Value) (tl : Dict) :
    Dict.keys ((k, w) :: tl) = k :: Dict.keys tl := rfl

theorem Dict.keys_set_of_contains (d : Dict) (nm : String) (v : Value)
    (h : Dict.contains d nm = true) :
    Dict.keys (Dict.set d nm v) = Dict.keys d := by
  induction d with
  | nil => simp [Dict.contains] at h
  | cons hd tl ih =>
    obtain ⟨k, w⟩ := hd
    simp only [Dict.contains, Bool.or_eq_true] at h
    by_cases hk : k == nm
    · have hkeq : k = nm := by simpa using hk
      simp [Dict.set, hk, Dict.keys_cons, hkeq]
    · simp only [Bool.not_eq_true] at hk
      obtain h | h := h
      · rw [hk] at h; exact absurd h (by simp)
      · simp [Dict.set, hk, Dict.keys_cons, ih h]

/-- Writing through the first owning frame: the name reads back as the new
value, every other name reads as before, and the innermost frame keeps
exactly its keys (no new binding is created anywhere). -/
theorem setExisting_spec : ∀ (env : Environment) (nm : String) (v : Value),
    Environment.containsAnywhere env nm = true →
    Environment.get_value (Environment.setExisting env nm v) nm = v
    ∧ (∀ nm', nm' ≠ nm →
        Environment.get_value (Environment.setExisting env nm v) nm' =
          Environment.get_value env nm')
    ∧ Dict.keys (Environment.setExisting env nm v).local_vars =
        Dict.keys env.local_vars
  | ⟨d, p⟩, nm, v, h => by
    by_cases hd : Dict.contains d nm
    · cases p with
      | none =>
        refine ⟨?_, ?_, ?_⟩
        · simp [Environment.setExisting, hd, Environment.get_value,
            Dict.find_set_self]
        · intro nm' hne
          simp [Environment.setExisting, hd, Environment.get_value,
            Dict.find_set_other d nm nm' v hne]
        · simp [Environment.setExisting, hd, Environment.local_vars,
            Dict.keys_set_of_contains d nm v hd]
      | some pe =>
        refine ⟨?_, ?_, ?_⟩
        · simp [Environment.setExisting, hd, Environment.get_value,
            Dict.find_set_self]
        · intro nm' hne
          simp [Environment.setExisting, hd, Environment.get_value,
            Dict.find_set_other d nm nm' v hne]
        · simp [Environment.setExisting, hd, Environment.local_vars,
            Dict.keys_set_of_contains d nm v hd]
    · simp only [Bool.not_eq_true] at hd
      cases p with
      | none => simp [Environment.containsAnywhere, hd] at h
      | some pe =>
        have hpe : Environment.containsAnywhere pe nm = true := by
          simpa [Environment.containsAnywhere, hd] using h
        obtain ⟨ih1, ih2, ih3⟩ := setExisting_spec pe nm v hpe
        have hfind : Dict.find d nm = Option.none :=
          Dict.contains_eq_false_find hd
        refine ⟨?_, ?_, ?_⟩
        · simp [Environment.setExisting, hd, Environment.get_value, hfind, ih1]
        · intro nm' hne
          cases hf : Dict.find d nm' with
          | some w =>
            simp [Environment.setExisting, hd, Environment.get_value, hf]
          | none =>
            simp [Environment.setExisting, hd, Environment.get_value, hf,
              ih2 nm' hne]
        · simp [Environment.setExisting, hd, Environment.local_vars]

/-- The frame-precise effect of `setExisting`: exactly the frame at the
`get_dict_of` depth is replaced, via a Python dict write, and all other
frames are untouched. -/
theorem setExisting_frames : ∀ (env : Environment) (nm : String) (v : Value),
    Environment.containsAnywhere env nm = true →
    ∃ j, Environment.get_dict_of env nm = some j
      ∧ Environment.frames (Environment.setExisting env nm v) =
          (Environment.frames env).set j
            (Dict.set ((Environment.frames env).getD j Dict.empty) nm v)
  | ⟨d, p⟩, nm, v, h => by
    by_cases hd : Dict.contains d nm
    · cases p with
      | none =>
        refine ⟨0, ?_, ?_⟩
        · simp [Environment.get_dict_of, hd]
        · simp [Environment.setExisting, hd, Environment.frames]
      | some pe =>
        refine ⟨0, ?_, ?_⟩
        · simp [Environment.get_dict_of, hd]
        · simp [Environment.setExisting, hd, Environment.frames]
    · simp only [Bool.not_eq_true] at hd
      cases p with
      | none => simp [Environment.containsAnywhere, hd] at h
      | some pe =>
        have hpe : Environment.containsAnywhere pe nm = true := by
          simpa [Environment.containsAnywhere, hd] using h
        obtain ⟨j, hj1, hj2⟩ := setExisting_frames pe nm v hpe
        refine ⟨j + 1, ?_, ?_⟩
        · simp [Environment.get_dict_of, hd, hj1]
        · simp [Environment.setExisting, hd, Environment.frames, hj2]

/-- C6. `Name.assign` to a name bound somewhere in the chain writes the
owning frame found by `get_dict_of` (the first frame walking outward):
lookup of that name from the assigned chain returns the new value, every
other name everywhere is unchanged, the innermost frame gains no new
binding, and frame-wise exactly the owning frame is replaced; when the
binding lives in the parent chain, the child frame is untouched and the
parent chain itself carries the assignment, so lookup from the parent also
returns the new value; a name bound nowhere is created in the innermost
frame. -/
theorem c6_assignment_owning_frame :
    (∀ (env : Environment) (nm : String) (v : Value),
      Environment.containsAnywhere env nm = false →
      Name.assign nm v env =
        ⟨Dict.set env.local_vars nm v, env.parent_env⟩)
    ∧ (∀ (env : Environment) (nm : String) (v : Value),
      Environment.containsAnywhere env nm = true →
      Environment.get_value (Name.assign nm v env) nm = v
      ∧ (∀ nm', nm' ≠ nm →
          Environment.get_value (Name.assign nm v env) nm' =
            Environment.get_value env nm')
      ∧ Dict.keys (Name.assign nm v env).local_vars =
          Dict.keys env.local_vars)
    ∧ (∀ (env : Environment) (nm : String) (v : Value),
      Environment.containsAnywhere env nm = true →
      ∃ j, Environment.get_dict_of env nm = some j
        ∧ Environment.frames (Name.assign nm v env) =
            (Environment.frames env).set j
              (Dict.set ((Environment.frames env).getD j Dict.empty) nm v))
    ∧ (∀ (d : Dict) (p : Environment) (nm : String) (v : Value),
      Dict.contains d nm = false →
      Environment.containsAnywhere p nm = true →
      Name.assign nm v ⟨d, some p⟩ = ⟨d, some (Name.assign nm v p)⟩
      ∧ Environment.get_value (Name.assign nm v p) nm = v) := by
  have hassign : ∀ (env : Environment) (nm : String) (v : Value),
      Environment.containsAnywhere env nm = true →
      Name.assign nm v env = Environment.setExisting env nm v := by
    intro env nm v h
    unfold Name.assign
    rw [if_pos h]
  refine ⟨?_, ?_, ?_, ?_⟩
  · intro env nm v h
    unfold Name.assign
    rw [if_neg (by simp [h])]
    cases env with
    | mk d p => rfl
  · intro env nm v h
    rw [hassign env nm v h]
    exact setExisting_spec env nm v h
  · intro env nm v h
    rw [hassign env nm v h]
    exact setExisting_frames env nm v h
  · intro d p nm v hd hp
    have hall : Environment.containsAnywhere (⟨d, some p⟩ : Environment) nm = true := by
      simp [Environment.containsAnywhere, hp]
    constructor
    · rw [hassign _ nm v hall, hassign p nm v hp]
      simp [Environment.setExisting, hd]
    · rw [hassign p nm v hp]
      exact (setExisting_spec p nm v hp).1

/-- C6 (witness): the spec's two-frame example — child frame empty, parent
binds x ↦ 5; assigning x ↦ 2 through the child updates the parent frame
(depth 1), lookup from child and from parent both give 2, and the child
frame stays empty; assigning a fresh name z binds it in the child frame. -/
theorem c6_assignment_owning_frame_witness :
    Name.assign "x" (.int 2) ⟨[], some ⟨[("x", .int 5)], Option.none⟩⟩ =
      ⟨[], some (Name.assign "x" (.int 2) ⟨[("x", .int 5)], Option.none⟩)⟩
    ∧ Environment.get_value
        (Name.assign "x" (.int 2) ⟨[("x", .int 5)], Option.none⟩) "x" = .int 2
    ∧ Environment.get_value
        (Name.assign "x" (.int 2) ⟨[], some ⟨[("x", .int 5)], Option.none⟩⟩)
        "x" = .int 2
    ∧ Dict.keys (Name.assign "x" (.int 2)
        ⟨[], some ⟨[("x", .int 5)], Option.none⟩⟩).local_vars = []
    ∧ (∃ j, Environment.get_dict_of
          (⟨[], some ⟨[("x", .int 5)], Option.none⟩⟩ : Environment) "x" =
          some j
        ∧ Environment.frames (Name.assign "x" (.int 2)
            ⟨[], some ⟨[("x", .int 5)], Option.none⟩⟩) =
          (Environment.frames
            (⟨[], some ⟨[("x", .int 5)], Option.none⟩⟩ : Environment)).set j
            (Dict.set ((Environment.frames
              (⟨[], some ⟨[("x", .int 5)], Option.none⟩⟩ :
                Environment)).getD j Dict.empty) "x" (.int 2)))
    ∧ Name.assign "z" (.int 9) ⟨[], some ⟨[("x", .int 5)], Option.none⟩⟩ =
        ⟨[("z", .int 9)], some ⟨[("x", .int 5)], Option.none⟩⟩ := by
  have hstep := (c6_assignment_owning_frame.2.2.2 [] ⟨[("x", .int 5)], Option.none⟩
    "x" (.int 2) rfl rfl)
  have hget := (c6_assignment_owning_frame.2.1
    ⟨[], some ⟨[("x", .int 5)], Option.none⟩⟩ "x" (.int 2) rfl)
  have hframes := (c6_assignment_owning_frame.2.2.1
    ⟨[], some ⟨[("x", .int 5)], Option.none⟩⟩ "x" (.int 2) rfl)
  have hnew := (c6_assignment_owning_frame.1
    ⟨[], some ⟨[("x", .int 5)], Option.none⟩⟩ "z" (.int 9) rfl)
  exact ⟨hstep.1, hstep.2, hget.1, hget.2.2, hframes, hnew⟩

end Pain
